import Mathlib

/-!
Verification of the `python_baserow_simple` client library.

The development shallowly embeds `src/python_baserow_simple/__init__.py`:
JSON values become the inductive `JVal`, Python dicts become association
lists, the HTTP transport becomes an explicit environment `Env` mapping
requests to responses, and every fallible operation returns
`Except PyErr _` where `PyErr` mirrors the exceptions the Python code can
raise (`RuntimeError`, `KeyError`, `TypeError`, `requests.HTTPError`).
-/

namespace Baserow

/-- A JSON value, the universe of data exchanged with the service.
Python `None`/`bool`/`int`/`str`/`list`/`dict` map to the six
constructors.  (Python floats never occur in the code under study.) -/
inductive JVal where
  | null
  | bool (b : Bool)
  | int (n : Int)
  | str (s : String)
  | arr (xs : List JVal)
  | obj (kvs : List (String × JVal))

mutual

/-- Python `==` on JSON values, structurally.  Two deliberate
simplifications of CPython semantics, neither exercised by the code under
study: `True == 1` is false here, and dict comparison is order-sensitive
here (the code only ever compares scalars and lists). -/
def JVal.beq : JVal → JVal → Bool
  | .null, .null => true
  | .bool a, .bool b => a == b
  | .int a, .int b => a == b
  | .str a, .str b => a == b
  | .arr xs, .arr ys => JVal.beqArr xs ys
  | .obj xs, .obj ys => JVal.beqObj xs ys
  | _, _ => false

def JVal.beqArr : List JVal → List JVal → Bool
  | [], [] => true
  | x :: xs, y :: ys => JVal.beq x y && JVal.beqArr xs ys
  | _, _ => false

def JVal.beqObj : List (String × JVal) → List (String × JVal) → Bool
  | [], [] => true
  | (k, v) :: xs, (k', v') :: ys => k == k' && JVal.beq v v' && JVal.beqObj xs ys
  | _, _ => false

end

/-- One `{id, value}` entry of a select field's `select_options`. -/
structure SelectOption where
  id : Int
  value : JVal

/-- A field descriptor, the schema metadata the service returns for one
column: the dict with keys `name`, `type`, `read_only`, `select_options`,
`link_row_table_id` that the Python code accesses by subscript.  It is
decoded into a structure once, at the (modelled) schema fetch. -/
structure Field where
  name : String
  type : String
  read_only : Bool
  select_options : List SelectOption
  link_row_table_id : Int

/-- The errors the Python code can raise.  `convertError` mirrors the
`RuntimeError(f"Could not convert {v} to any of {opts}")` of
`_convert_selects`, keeping the offending value and the candidate option
set as structured payload; `httpError` mirrors `requests.HTTPError`
carrying the response's status and body. -/
inductive PyErr where
  | runtimeError (msg : String)
  | keyError (key : String)
  | typeError (msg : String)
  | httpError (status : Nat) (body : JVal)
  | convertError (offending : JVal) (options : List SelectOption)

/-- Association-list lookup, first match: Python dict subscript/`in` on a
dict whose keys are unique. -/
def alLookup {α : Type} : List (String × α) → String → Option α
  | [], _ => none
  | (k', v) :: rest, k => if k' = k then some v else alLookup rest k

/-- Association-list update: Python `d[k] = v` (replaces in place,
appends when the key is new). -/
def alSet {α : Type} : List (String × α) → String → α → List (String × α)
  | [], k, v => [(k, v)]
  | (k', v') :: rest, k, v =>
      if k' = k then (k, v) :: rest else (k', v') :: alSet rest k v

/-- Update for a dict keyed by JSON values (row ids), Python `d[k] = v`
with `==`-equality of keys. -/
def jdSet : List (JVal × JVal) → JVal → JVal → List (JVal × JVal)
  | [], k, v => [(k, v)]
  | (k', v') :: rest, k, v =>
      if JVal.beq k' k then (k, v) :: rest else (k', v') :: jdSet rest k v

/-- Python truthiness of a JSON value (`if x:`). -/
def truthy : JVal → Bool
  | .null => false
  | .bool b => b
  | .int n => n != 0
  | .str s => s != ""
  | .arr xs => !xs.isEmpty
  | .obj kvs => !kvs.isEmpty

/-- Python `isinstance(v, int)`; `bool` is a subclass of `int` in Python. -/
def pyIsInt : JVal → Bool
  | .int _ => true
  | .bool _ => true
  | _ => false

/-- Python `k in j` for a string `k`: key membership for a dict, element
membership for a list, substring test for a string.  (Python raises
`TypeError` on non-containers; the code under study only applies this to
JSON responses, where `false` is an adequate rendering.) -/
def pyContainsStr (j : JVal) (k : String) : Bool :=
  match j with
  | .obj kvs => kvs.any (fun kv => kv.1 == k)
  | .arr xs => xs.any (fun x => JVal.beq x (.str k))
  | .str s => if k = "" then true else (s.splitOn k).length ≥ 2
  | _ => false

/-- Python `j[k]` for a string key: dict lookup raising `KeyError` when
absent, `TypeError` on anything that is not a dict. -/
def JVal.getItem (j : JVal) (k : String) : Except PyErr JVal :=
  match j with
  | .obj kvs =>
      match alLookup kvs k with
      | some v => .ok v
      | none => .error (.keyError k)
  | _ => .error (.typeError "value is not subscriptable by string")

/-- Python `j.items()`: the key-value pairs of a dict, `AttributeError`
(rendered as a type error) otherwise. -/
def pyItems : JVal → Except PyErr (List (String × JVal))
  | .obj kvs => .ok kvs
  | _ => .error (.typeError "object has no attribute items")

/-- Python `j.get(k)` on a dict: the value or `None`; a type error on a
non-dict (`AttributeError`). -/
def pyDictGet (j : JVal) (k : String) : Except PyErr JVal :=
  match j with
  | .obj kvs => .ok ((alLookup kvs k).getD .null)
  | _ => .error (.typeError "object has no attribute get")

/-- Python `for x in j`: a list yields its elements, a string its
characters, a dict its keys; other values raise `TypeError`. -/
def pyIter : JVal → Except PyErr (List JVal)
  | .arr xs => .ok xs
  | .str s => .ok (s.toList.map (fun c => JVal.str (String.mk [c])))
  | .obj kvs => .ok (kvs.map (fun kv => JVal.str kv.1))
  | _ => .error (.typeError "object is not iterable")

/-- Python `a + b` as used on page results: list and string
concatenation, integer addition; `TypeError` otherwise. -/
def pyAdd : JVal → JVal → Except PyErr JVal
  | .arr a, .arr b => .ok (.arr (a ++ b))
  | .str a, .str b => .ok (.str (a ++ b))
  | .int a, .int b => .ok (.int (a + b))
  | _, _ => .error (.typeError "unsupported operand types for +")

/-- Effect-free `mapM` over `Except`, written as plain recursion so that
it unfolds definitionally (Python list comprehensions over fallible
element expressions). -/
def mapExcept {α β : Type} (f : α → Except PyErr β) : List α → Except PyErr (List β)
  | [] => .ok []
  | a :: l =>
      match f a with
      | .error e => .error e
      | .ok b =>
          match mapExcept f l with
          | .error e => .error e
          | .ok bs => .ok (b :: bs)

/-- `format_value(raw_value, field_info)` (source lines 13-29): read-path
formatting of one raw wire value according to the field's `type`. -/
def format_value (raw_value : JVal) (field_info : Field) : Except PyErr JVal :=
  if field_info.type = "single_select" then
    match raw_value with
    | .obj kvs => JVal.getItem (.obj kvs) "value"
    | .null => .ok .null
    | _ => .error (.runtimeError "malformed single_select")
  else if field_info.type = "multiple_select" then
    match raw_value with
    | .arr xs =>
        match mapExcept (fun v => v.getItem "value") xs with
        | .error e => .error e
        | .ok vs => .ok (.arr vs)
    | _ => .error (.runtimeError "malformed multiple_select")
  else if field_info.type = "link_row" then
    match raw_value with
    | .arr xs =>
        match mapExcept (fun v => v.getItem "id") xs with
        | .error e => .error e
        | .ok vs => .ok (.arr vs)
    | _ => .error (.runtimeError "malformed link_row")
  else .ok raw_value

/-- `convert_option(v, opts)`, the closure inside `_convert_selects`
(source lines 117-124): keep integers, otherwise look the value up among
the select options; no match is a hard error carrying the offending value
and the option set. -/
def convert_option (v : JVal) (opts : List SelectOption) : Except PyErr JVal :=
  if pyIsInt v then .ok v
  else
    match opts.find? (fun opt => JVal.beq opt.value v) with
    | some opt => .ok (.int opt.id)
    | none => .error (.convertError v opts)

/-- One iteration of the `for field in fields` loop of `_convert_selects`
(source lines 126-145), acting on the current converted dict. -/
def convert_selects_field (data_conv : List (String × JVal)) (field : Field) :
    Except PyErr (List (String × JVal)) :=
  if field.read_only then .ok data_conv
  else
    match alLookup data_conv field.name with
    | none => .ok data_conv
    | some cur_value =>
        if JVal.beq cur_value .null || JVal.beq cur_value (.arr []) then .ok data_conv
        else if field.type = "single_select" then
          match convert_option cur_value field.select_options with
          | .error e => .error e
          | .ok cv => .ok (alSet data_conv field.name cv)
        else if field.type = "multiple_select" then
          match pyIter cur_value with
          | .error e => .error e
          | .ok single_values =>
              match mapExcept (fun sv => convert_option sv field.select_options) single_values with
              | .error e => .error e
              | .ok new_value => .ok (alSet data_conv field.name (.arr new_value))
        else .ok data_conv

/-- `_convert_selects(data, fields)` (source lines 114-146).  The Python
function first takes a `deepcopy` of `data` and then mutates only the
copy; in this pure embedding the copy is the value itself and the
function returns the updated dict. -/
def _convert_selects (data : List (String × JVal)) : List Field → Except PyErr (List (String × JVal))
  | [] => .ok data
  | field :: rest =>
      match convert_selects_field data field with
      | .error e => .error e
      | .ok data' => _convert_selects data' rest

/-- An HTTP response: status code and already-parsed JSON body
(`resp.json()`; non-JSON bodies are outside the model). -/
structure HttpResp where
  status : Nat
  body : JVal

/-- The remote service as seen through the transport: a deterministic
mapping from requests to responses.  `GET` is keyed by URL; `POST` and
`PATCH` also receive the JSON request body, so a response may depend on
what was transmitted.  The field-schema endpoint is modelled separately
and already decoded (`fieldsStatus`/`fieldsData` are the status and the
decoded field-descriptor list of `GET {fields_path}/{table_id}/`). -/
structure Env where
  getResp : String → HttpResp
  postResp : String → JVal → HttpResp
  patchResp : String → JVal → HttpResp
  fieldsStatus : Int → Nat
  fieldsData : Int → List Field

/-- `resp.raise_for_status()` of the `requests` library: raises
`HTTPError` exactly for 4xx/5xx statuses, carrying the response. -/
def raise_for_status (resp : HttpResp) : Except PyErr Unit :=
  if 400 ≤ resp.status then .error (.httpError resp.status resp.body) else .ok ()

/-- `BaserowApi.table_path`. -/
def table_path : String := "api/database/rows/table"

/-- `BaserowApi.fields_path`. -/
def fields_path : String := "api/database/fields/table"

/-- The listing/create URL `{database_url}/{table_path}/{table_id}/?user_field_names=true`. -/
def row_list_url (database_url : String) (table_id : Int) : String :=
  database_url ++ "/" ++ table_path ++ "/" ++ toString table_id ++ "/?user_field_names=true"

/-- The single-row URL `{database_url}/{table_path}/{table_id}/{row_id}/?user_field_names=true`. -/
def row_url (database_url : String) (table_id row_id : Int) : String :=
  database_url ++ "/" ++ table_path ++ "/" ++ toString table_id ++ "/" ++ toString row_id
    ++ "/?user_field_names=true"

/-- The batch URL `{database_url}/{table_path}/{table_id}/batch/?user_field_names=true`. -/
def batch_url (database_url : String) (table_id : Int) : String :=
  database_url ++ "/" ++ table_path ++ "/" ++ toString table_id ++ "/batch/?user_field_names=true"

/-- `_get_fields(table_id)` (source lines 44-53): fetch the schema,
`raise_for_status`, return the decoded JSON (here: the decoded field
list).  The error body is not inspected by any caller and is modelled as
`null`. -/
def _get_fields (env : Env) (table_id : Int) : Except PyErr (List Field) :=
  if 400 ≤ env.fieldsStatus table_id then
    .error (.httpError (env.fieldsStatus table_id) .null)
  else .ok (env.fieldsData table_id)

/-- `get_fields(table_id)` (source lines 164-167).  The per-instance
cache `self._fields` only memoises `_get_fields` against the same
deterministic environment (and failed fetches are not cached), so the
cached call is observationally the uncached one. -/
def get_fields (env : Env) (table_id : Int) : Except PyErr (List Field) :=
  _get_fields env table_id

/-- `writable_fields(table_id)` (source lines 169-172). -/
def writable_fields (env : Env) (table_id : Int) : Except PyErr (List Field) :=
  match get_fields env table_id with
  | .error e => .error e
  | .ok fields => .ok (fields.filter (fun field => !field.read_only))

/-- The body of `_get_data(url, paginated)` (source lines 148-162), with
the self-recursive call `self._get_data(data["next"])` abstracted as
`recurse`.  No `raise_for_status` is performed: the response body is used
whatever the status.  When paginated, a missing `results` key is a
`RuntimeError`, and a truthy `next` is followed via `recurse`. -/
def _get_data_step (env : Env) (url : String) (paginated : Bool)
    (recurse : String → Except PyErr JVal) : Except PyErr JVal :=
  let data := (env.getResp url).body
  if paginated then
    if !(pyContainsStr data "results") then
      .error (.runtimeError ("Could not get data from " ++ url))
    else
      match data.getItem "next" with
      | .error e => .error e
      | .ok next =>
          if truthy next then
            match data.getItem "results" with
            | .error e => .error e
            | .ok results =>
                match next with
                | .str u =>
                    match recurse u with
                    | .error e => .error e
                    | .ok rest => pyAdd results rest
                | _ => .error (.typeError "request url must be a string")
          else data.getItem "results"
  else .ok data

/-- `_get_data(url, paginated)` (source lines 148-162): the recursion of
`_get_data_step`, bounded by `fuel` (Python's interpreter recursion
limit plays this role; the bound is only ever reached by an unboundedly
long `next` chain). -/
def _get_data (env : Env) : Nat → String → Bool → Except PyErr JVal
  | 0, url, paginated =>
      _get_data_step env url paginated
        (fun _ => .error (.runtimeError "maximum recursion depth exceeded"))
  | fuel + 1, url, paginated =>
      _get_data_step env url paginated (fun u => _get_data env fuel u true)

/-- The dict comprehension `{f["name"]: f for f in fields}` used by
`get_data` and `get_entry` (source lines 184 and 203). -/
def mkNames (fields : List Field) : List (String × Field) :=
  fields.foldl (fun m f => alSet m f.name f) []

/-- The inner comprehension of `get_data`/`get_entry` (source lines
190-193 and 204): keep only keys known to `names` and format each kept
value by its field. -/
def format_row (names : List (String × Field)) : List (String × JVal) →
    Except PyErr (List (String × JVal))
  | [] => .ok []
  | (k, v) :: rest =>
      match alLookup names k with
      | none => format_row names rest
      | some f =>
          match format_value v f with
          | .error e => .error e
          | .ok w =>
              match format_row names rest with
              | .error e => .error e
              | .ok fr => .ok ((k, w) :: fr)

/-- The outer comprehension of `get_data` (source lines 188-195): one
entry per fetched row, keyed by the row's `id`, with the formatted,
restricted row as value. -/
def rows_to_dict (names : List (String × Field)) :
    List JVal → List (JVal × JVal) → Except PyErr (List (JVal × JVal))
  | [], acc => .ok acc
  | d :: rest, acc =>
      match d.getItem "id" with
      | .error e => .error e
      | .ok rid =>
          match pyItems d with
          | .error e => .error e
          | .ok kvs =>
              match format_row names kvs with
              | .error e => .error e
              | .ok fr => rows_to_dict names rest (jdSet acc rid (.obj fr))

/-- `get_data(table_id, writable_only)` (source lines 174-197). -/
def get_data (env : Env) (database_url : String) (fuel : Nat) (table_id : Int)
    (writable_only : Bool) : Except PyErr (List (JVal × JVal)) :=
  match (if writable_only then writable_fields env table_id else get_fields env table_id) with
  | .error e => .error e
  | .ok fields =>
      let names := mkNames fields
      match _get_data env fuel (row_list_url database_url table_id) true with
      | .error e => .error e
      | .ok data =>
          match pyIter data with
          | .error e => .error e
          | .ok rows => rows_to_dict names rows []

/-- `_create_row(table_id, data)` (source lines 55-70): POST the row,
`raise_for_status`, and return the response's `id`; a response without an
`id` key is a malformed-response `RuntimeError`. -/
def _create_row (env : Env) (database_url : String) (table_id : Int)
    (data : List (String × JVal)) : Except PyErr JVal :=
  let resp := env.postResp (row_list_url database_url table_id) (.obj data)
  match raise_for_status resp with
  | .error e => .error e
  | .ok _ =>
      if pyContainsStr resp.body "id" then resp.body.getItem "id"
      else .error (.runtimeError "Malformed response")

/-- `_update_row(table_id, row_id, data)` (source lines 72-82): PATCH the
row and `raise_for_status`; the response body is not used. -/
def _update_row (env : Env) (database_url : String) (table_id row_id : Int)
    (data : List (String × JVal)) : Except PyErr Unit :=
  raise_for_status (env.patchResp (row_url database_url table_id row_id) (.obj data))

/-- `_create_rows(table_id, datas)` (source lines 99-112): POST
`{"items": datas}` to the batch endpoint, `raise_for_status`, and read
the ids out of `data["items"]`. -/
def _create_rows (env : Env) (database_url : String) (table_id : Int)
    (datas : List JVal) : Except PyErr (List JVal) :=
  let resp := env.postResp (batch_url database_url table_id) (.obj [("items", .arr datas)])
  match raise_for_status resp with
  | .error e => .error e
  | .ok _ =>
      match resp.body.getItem "items" with
      | .error e => .error e
      | .ok items =>
          match pyIter items with
          | .error e => .error e
          | .ok es => mapExcept (fun e => e.getItem "id") es

/-- `_update_rows(table_id, datas)` (source lines 84-97): like
`_create_rows` but PATCH. -/
def _update_rows (env : Env) (database_url : String) (table_id : Int)
    (datas : List JVal) : Except PyErr (List JVal) :=
  let resp := env.patchResp (batch_url database_url table_id) (.obj [("items", .arr datas)])
  match raise_for_status resp with
  | .error e => .error e
  | .ok _ =>
      match resp.body.getItem "items" with
      | .error e => .error e
      | .ok items =>
          match pyIter items with
          | .error e => .error e
          | .ok es => mapExcept (fun e => e.getItem "id") es

/-- The content of `seen_tables_next` right after source lines 206-207:
`seen_tables_next = seen_tables or []` followed by
`seen_tables_next.append(table_id)`.  A non-empty caller list is aliased
(the caller's own list object is extended); `None` or an empty list gets
a fresh list.  Either way the resulting content is the old content with
`table_id` appended. -/
def seen_tables_next (seen : Option (List Int)) (table_id : Int) : List Int :=
  (match seen with
   | some l => if l.isEmpty then [] else l
   | none => []) ++ [table_id]

/-- Whether `seen_tables_next` aliases the caller's list, i.e. whether
the original `seen_tables` argument was a non-empty list.  Exactly then
the loop's guard `not seen_tables` keeps seeing the growing list (and is
false), so the guard reduces to `linked_table_id not in seen_tables`. -/
def seen_aliased : Option (List Int) → Bool
  | some l => !l.isEmpty
  | none => false

/-- The fetch-and-format prefix of `get_entry` (source lines 199-204):
one non-paginated row fetch, schema lookup, and §4.2 formatting of the
keys known to the schema.  No hydration and no dependence on
`seen_tables`. -/
def entry_row (env : Env) (database_url : String) (table_id entry_id : Int) :
    Except PyErr (List (String × JVal)) :=
  match _get_data env 0 (row_url database_url table_id entry_id) false with
  | .error e => .error e
  | .ok data =>
      match get_fields env table_id with
      | .error e => .error e
      | .ok fields =>
          match pyItems data with
          | .error e => .error e
          | .ok kvs => format_row (mkNames fields) kvs

/-- `get_entry(table_id, entry_id, linked=False, seen_tables=...)`:
the behaviour of the source function when `linked` is false (lines
199-207 and 220).  Besides the formatted row it returns the final
content of `seen_tables_next`, which under aliasing is the caller's
mutated list. -/
def get_entry_unlinked (env : Env) (database_url : String) (table_id entry_id : Int)
    (seen : Option (List Int)) : Except PyErr (List (String × JVal) × List Int) :=
  match entry_row env database_url table_id entry_id with
  | .error e => .error e
  | .ok formatted => .ok (formatted, seen_tables_next seen table_id)

/-- The list comprehension of source lines 216-218: fetch each referenced
row with a recursive `get_entry(..., linked=False, seen_tables=
seen_tables_next)` call.  Each call appends the linked table's id to the
shared list, so the threaded `sn` grows per element. -/
def hydrate_ids (env : Env) (database_url : String) (linked_table_id : Int) :
    List JVal → List Int → Except PyErr (List JVal × List Int)
  | [], sn => .ok ([], sn)
  | e_id :: rest, sn =>
      match e_id.getItem "id" with
      | .error e => .error e
      | .ok (.int n) =>
          match get_entry_unlinked env database_url linked_table_id n (some sn) with
          | .error e => .error e
          | .ok (row, sn') =>
              match hydrate_ids env database_url linked_table_id rest sn' with
              | .error e => .error e
              | .ok (rows, sn'') => .ok (.obj row :: rows, sn'')
      | .ok _ => .error (.typeError "entry id is not an integer")

/-- The `for field in link_fields` loop of `get_entry` (source lines
212-218), threading the formatted dict and the shared
`seen_tables`/`seen_tables_next` content.  The guard is
`not seen_tables or linked_table_id not in seen_tables`: under aliasing
(`aliased = true`) `seen_tables` is the growing list `sn` itself, which
is never empty, so the guard is membership in the current `sn`;
otherwise `seen_tables` stayed `None` or the untouched empty list, so
the guard is always true. -/
def hydrate_fields (env : Env) (database_url : String) (kvs : List (String × JVal))
    (aliased : Bool) :
    List Field → List (String × JVal) → List Int →
    Except PyErr (List (String × JVal) × List Int)
  | [], formatted, sn => .ok (formatted, sn)
  | field :: rest, formatted, sn =>
      if !aliased || !(sn.contains field.link_row_table_id) then
        let ids := (alLookup kvs field.name).getD .null
        if truthy ids then
          match pyIter ids with
          | .error e => .error e
          | .ok es =>
              match hydrate_ids env database_url field.link_row_table_id es sn with
              | .error e => .error e
              | .ok (rows, sn') =>
                  hydrate_fields env database_url kvs aliased rest
                    (alSet formatted field.name (.arr rows)) sn'
        else hydrate_fields env database_url kvs aliased rest formatted sn
      else hydrate_fields env database_url kvs aliased rest formatted sn

/-- `get_entry(table_id, entry_id, linked, seen_tables)` (source lines
199-220).  The recursive calls of the source always pass `linked=False`;
they appear here as `get_entry_unlinked`, which
`get_entry_false_eq_unlinked` below proves equal to `get_entry` at
`linked = false`. -/
def get_entry (env : Env) (database_url : String) (table_id entry_id : Int)
    (linked : Bool) (seen : Option (List Int)) :
    Except PyErr (List (String × JVal) × List Int) :=
  match _get_data env 0 (row_url database_url table_id entry_id) false with
  | .error e => .error e
  | .ok data =>
      match get_fields env table_id with
      | .error e => .error e
      | .ok fields =>
          match pyItems data with
          | .error e => .error e
          | .ok kvs =>
              match format_row (mkNames fields) kvs with
              | .error e => .error e
              | .ok formatted =>
                  if linked then
                    hydrate_fields env database_url kvs (seen_aliased seen)
                      (fields.filter (fun f => f.type == "link_row"))
                      formatted (seen_tables_next seen table_id)
                  else .ok (formatted, seen_tables_next seen table_id)

/-- Python truthiness of the `row_id=None` parameter of `add_data`
(`if row_id:` at source line 225): `None` and `0` are falsy. -/
def row_id_truthy : Option Int → Bool
  | none => false
  | some r => r != 0

/-- `add_data(table_id, data, row_id)` (source lines 222-230): schema
lookup, select conversion, then a single-row update (truthy `row_id`,
returning the same id) or create (returning the id from the response). -/
def add_data (env : Env) (database_url : String) (table_id : Int)
    (data : List (String × JVal)) (row_id : Option Int) : Except PyErr JVal :=
  match get_fields env table_id with
  | .error e => .error e
  | .ok fields =>
      match _convert_selects data fields with
      | .error e => .error e
      | .ok data_conv =>
          if row_id_truthy row_id then
            match _update_row env database_url table_id (row_id.getD 0) data_conv with
            | .error e => .error e
            | .ok _ => .ok (.int (row_id.getD 0))
          else _create_row env database_url table_id data_conv

/-- The partitioning loop of `add_data_batch` (source lines 234-240):
entries whose `entry.get("id") is not None` go to the update list, the
others to the create list, both in input order.  Returns
`(entries_update, entries_new)`. -/
def partition_entries : List JVal → Except PyErr (List JVal × List JVal)
  | [] => .ok ([], [])
  | entry :: rest =>
      match pyDictGet entry "id" with
      | .error e => .error e
      | .ok v =>
          match partition_entries rest with
          | .error e => .error e
          | .ok (upd, new) =>
              if JVal.beq v .null then .ok (upd, entry :: new)
              else .ok (entry :: upd, new)

/-- The `try/except requests.HTTPError` around one batch call (source
lines 243-252): an HTTP error contributes its response body to the error
list, any other error propagates. -/
def batch_catch (r : Except PyErr (List JVal)) : Except PyErr (List JVal) :=
  match r with
  | .ok _ => .ok []
  | .error (.httpError _ body) => .ok [body]
  | .error e => .error e

/-- `add_data_batch(table_id, entries)` (source lines 232-253): partition
by presence of a non-null `id`, send the create batch then the update
batch (each skipped when empty), collect HTTP failures' bodies, raise
anything else. -/
def add_data_batch (env : Env) (database_url : String) (table_id : Int)
    (entries : List JVal) : Except PyErr (List JVal) :=
  match partition_entries entries with
  | .error e => .error e
  | .ok (entries_update, entries_new) =>
      match (if entries_new.isEmpty then .ok [] else
              batch_catch (_create_rows env database_url table_id entries_new)) with
      | .error e => .error e
      | .ok errs_new =>
          match (if entries_update.isEmpty then .ok [] else
                  batch_catch (_update_rows env database_url table_id entries_update)) with
          | .error e => .error e
          | .ok errs_upd => .ok (errs_new ++ errs_upd)

/-- A finite chain of paginated listing responses reachable from a URL:
each page's body has a `results` list; every page but the last has a
truthy string `next` URL, the last a falsy `next`.  The index is the
number of `next` links followed. -/
inductive PageChain (env : Env) : String → List (List JVal) → Nat → Prop
  | last (url : String) (page : List JVal) (nv : JVal) :
      pyContainsStr (env.getResp url).body "results" = true →
      (env.getResp url).body.getItem "next" = .ok nv →
      truthy nv = false →
      (env.getResp url).body.getItem "results" = .ok (.arr page) →
      PageChain env url [page] 0
  | step (url : String) (page : List JVal) (u : String) (rest : List (List JVal)) (n : Nat) :
      pyContainsStr (env.getResp url).body "results" = true →
      (env.getResp url).body.getItem "next" = .ok (.str u) →
      u ≠ "" →
      (env.getResp url).body.getItem "results" = .ok (.arr page) →
      PageChain env u rest n →
      PageChain env url (page :: rest) (n + 1)

/-- The field list `get_data` resolves to (source lines 180-183):
writable fields by default, all fields otherwise. -/
def resolved_fields (fields_all : List Field) (writable_only : Bool) : List Field :=
  if writable_only then fields_all.filter (fun f => !f.read_only) else fields_all

/-- What one returned `get_data` entry must be for its fetched row: keyed
by the row's `id`, valued with the formatted restriction of the row. -/
def RowOk (names : List (String × Field)) (d : JVal) (p : JVal × JVal) : Prop :=
  d.getItem "id" = .ok p.1 ∧
  ∃ kvs fr, pyItems d = .ok kvs ∧ format_row names kvs = .ok fr ∧ p.2 = .obj fr

/-- What one hydrated sub-row must be for its referenced-id entry: the
plain (unhydrated) fetch-and-format of the referenced row. -/
def SubRowOk (env : Env) (database_url : String) (linked_table_id : Int)
    (e r : JVal) : Prop :=
  ∃ n sub, e.getItem "id" = .ok (.int n) ∧
    entry_row env database_url linked_table_id n = .ok sub ∧ r = .obj sub

/-- The batch-partition predicate the code actually uses
(`entry.get("id") is not None`): the entry is a dict carrying an `id`
key whose value is not null. -/
def entry_has_id (entry : JVal) : Bool :=
  match entry with
  | .obj kvs => !(JVal.beq ((alLookup kvs "id").getD .null) .null)
  | _ => false

/-- A writable plain field used by concrete test instances. -/
def fieldW1 : Field := ⟨"a", "number", false, [], 0⟩

/-- Page 1 of a two-page listing: one row, `next` pointing at `"u2"`. -/
def pageW1 : JVal :=
  .obj [("results", .arr [.obj [("id", .int 1), ("a", .int 10)]]), ("next", .str "u2")]

/-- Page 2 of a two-page listing: one row, `next` null. -/
def pageW2 : JVal :=
  .obj [("results", .arr [.obj [("id", .int 2), ("a", .int 20)]]), ("next", .null)]

/-- A service serving the two-page listing for table 1. -/
def envW1 : Env where
  getResp := fun u =>
    if u = row_list_url "db" 1 then ⟨200, pageW1⟩
    else if u = "u2" then ⟨200, pageW2⟩
    else ⟨404, .null⟩
  postResp := fun _ _ => ⟨200, .null⟩
  patchResp := fun _ _ => ⟨200, .null⟩
  fieldsStatus := fun _ => 200
  fieldsData := fun _ => [fieldW1]

/-- A writable `single_select` field with one option, for test instances. -/
def fldS : Field := ⟨"s", "single_select", false, [⟨7, .str "Yes"⟩], 0⟩

/-- A writable `multiple_select` field with two options, for test instances. -/
def fldM : Field := ⟨"m", "multiple_select", false, [⟨7, .str "Yes"⟩, ⟨8, .str "No"⟩], 0⟩

/-- A read-only `single_select` field, for test instances. -/
def fldRO : Field := ⟨"ro", "single_select", true, [⟨7, .str "Yes"⟩], 0⟩

/-- A service whose create endpoint reports id 42 exactly when the
posted body carries the read-only key `ro` (and id 1 otherwise), making
the transmitted body observable through the returned id. -/
def envC5 : Env where
  getResp := fun _ => ⟨200, .null⟩
  postResp := fun _ body =>
    ⟨200, .obj [("id", if pyContainsStr body "ro" then .int 42 else .int 1)]⟩
  patchResp := fun _ _ => ⟨200, .null⟩
  fieldsStatus := fun _ => 200
  fieldsData := fun _ => [fldRO]

/-- A service whose single-row update endpoint always fails with a 500
and whose create endpoint returns id 7: which endpoint a call used is
observable from its outcome. -/
def envC7 : Env where
  getResp := fun _ => ⟨200, .null⟩
  postResp := fun _ _ => ⟨200, .obj [("id", .int 7)]⟩
  patchResp := fun _ _ => ⟨500, .str "update called"⟩
  fieldsStatus := fun _ => 200
  fieldsData := fun _ => []

/-- A service whose batch-create endpoint fails with a 400 carrying body
`"createfail"` while the batch-update endpoint succeeds. -/
def envC8 : Env where
  getResp := fun _ => ⟨200, .null⟩
  postResp := fun _ _ => ⟨400, .str "createfail"⟩
  patchResp := fun _ _ => ⟨200, .obj [("items", .arr [])]⟩
  fieldsStatus := fun _ => 200
  fieldsData := fun _ => []

/-- A service whose every plain GET answers 500 with an empty-object
body while the schema endpoint works. -/
def envC9 : Env where
  getResp := fun _ => ⟨500, .obj []⟩
  postResp := fun _ _ => ⟨200, .null⟩
  patchResp := fun _ _ => ⟨200, .null⟩
  fieldsStatus := fun _ => 200
  fieldsData := fun _ => []

/-- Two tables referencing each other: table 1 has a `link_row` field
`b` to table 2, table 2 a `link_row` field `back` to table 1.  Row 5 of
table 1 links to row 9 of table 2, which links back to row 5. -/
def envE : Env where
  getResp := fun u =>
    if u = row_url "db" 1 5 then ⟨200, .obj [("b", .arr [.obj [("id", .int 9)]])]⟩
    else if u = row_url "db" 2 9 then
      ⟨200, .obj [("c", .int 3), ("back", .arr [.obj [("id", .int 5)]])]⟩
    else ⟨404, .null⟩
  postResp := fun _ _ => ⟨200, .null⟩
  patchResp := fun _ _ => ⟨200, .null⟩
  fieldsStatus := fun _ => 200
  fieldsData := fun t =>
    if t = 1 then [⟨"b", "link_row", false, [], 2⟩]
    else [⟨"c", "number", false, [], 0⟩, ⟨"back", "link_row", false, [], 1⟩]

section Lemmas

lemma alLookup_alSet_self {α : Type} (m : List (String × α)) (k : String) (v : α) :
    alLookup (alSet m k v) k = some v := by
  induction m with
  | nil => simp [alSet, alLookup]
  | cons kv rest ih =>
      obtain ⟨k', v'⟩ := kv
      by_cases h : k' = k
      · simp [alSet, h, alLookup]
      · simp [alSet, h, alLookup, ih]

lemma alLookup_alSet_ne {α : Type} (m : List (String × α)) (k k' : String) (v : α)
    (h : k' ≠ k) : alLookup (alSet m k v) k' = alLookup m k' := by
  induction m with
  | nil => simp [alSet, alLookup, Ne.symm h]
  | cons kv rest ih =>
      obtain ⟨k0, v0⟩ := kv
      by_cases h0 : k0 = k
      · subst h0
        simp [alSet, alLookup, Ne.symm h]
      · simp [alSet, h0, alLookup, ih]

lemma alSet_map_fst_of_lookup {α : Type} (m : List (String × α)) (k : String) (v w : α)
    (h : alLookup m k = some w) : (alSet m k v).map Prod.fst = m.map Prod.fst := by
  induction m with
  | nil => simp [alLookup] at h
  | cons kv rest ih =>
      obtain ⟨k0, v0⟩ := kv
      by_cases h0 : k0 = k
      · simp [alSet, h0]
      · simp [alLookup, h0] at h
        simp [alSet, h0, ih h]

lemma jdSet_append (m : List (JVal × JVal)) (k v : JVal)
    (h : ∀ p ∈ m, JVal.beq p.1 k = false) : jdSet m k v = m ++ [(k, v)] := by
  induction m with
  | nil => simp [jdSet]
  | cons p rest ih =>
      obtain ⟨k0, v0⟩ := p
      have h0 : JVal.beq k0 k = false := h (k0, v0) (by simp)
      simp [jdSet, h0, ih (fun q hq => h q (by simp [hq]))]

lemma alLookup_contains (kvs : List (String × JVal)) (k : String) (v : JVal)
    (h : alLookup kvs k = some v) : pyContainsStr (.obj kvs) k = true := by
  induction kvs with
  | nil => simp [alLookup] at h
  | cons kv rest ih =>
      obtain ⟨k0, v0⟩ := kv
      by_cases h0 : k0 = k
      · simp [pyContainsStr, h0]
      · simp [alLookup, h0] at h
        have := ih h
        simp [pyContainsStr] at this ⊢
        exact Or.inr this

/-- Keys of distinct fields in a list with `Nodup` names are distinct. -/
lemma field_name_inj {fields : List Field} (hnd : (fields.map Field.name).Nodup)
    {f g : Field} (hf : f ∈ fields) (hg : g ∈ fields) (h : f.name = g.name) : f = g := by
  induction fields with
  | nil => cases hf
  | cons a rest ih =>
      simp only [List.map_cons, List.nodup_cons] at hnd
      rcases List.mem_cons.mp hf with rfl | hf'
      · rcases List.mem_cons.mp hg with rfl | hg'
        · rfl
        · exact absurd (h ▸ List.mem_map_of_mem Field.name hg') hnd.1
      · rcases List.mem_cons.mp hg with rfl | hg'
        · exact absurd (h ▸ List.mem_map_of_mem Field.name hf') hnd.1
        · exact ih hnd.2 hf' hg'

lemma format_row_restrict (names : List (String × Field)) (kvs fr : List (String × JVal))
    (h : format_row names kvs = .ok fr) (k : String) (hk : alLookup names k = none) :
    alLookup fr k = none := by
  induction kvs generalizing fr with
  | nil =>
      simp only [format_row, Except.ok.injEq] at h
      subst h
      simp [alLookup]
  | cons kv rest ih =>
      obtain ⟨k0, v0⟩ := kv
      simp only [format_row] at h
      split at h
      · exact ih fr h
      · rename_i f hf0
        split at h
        · simp at h
        · rename_i w hw
          split at h
          · simp at h
          · rename_i fr' hrest
            cases h
            have hne : k0 ≠ k := by
              intro he
              rw [he, hk] at hf0
              cases hf0
            simp only [alLookup, if_neg hne]
            exact ih fr' hrest

lemma format_row_lookup (names : List (String × Field)) (kvs fr : List (String × JVal))
    (h : format_row names kvs = .ok fr) (k : String) (f : Field) (v : JVal)
    (hf : alLookup names k = some f) (hv : alLookup kvs k = some v) :
    ∃ w, format_value v f = .ok w ∧ alLookup fr k = some w := by
  induction kvs generalizing fr with
  | nil => simp [alLookup] at hv
  | cons kv rest ih =>
      obtain ⟨k0, v0⟩ := kv
      simp only [format_row] at h
      by_cases hk0 : k0 = k
      · subst hk0
        simp [alLookup] at hv
        subst hv
        rw [hf] at h
        simp only at h
        split at h
        · simp at h
        · rename_i w hw
          split at h
          · simp at h
          · rename_i fr' hrest
            cases h
            exact ⟨w, hw, by simp [alLookup]⟩
      · simp only [alLookup, if_neg hk0] at hv
        split at h
        · exact ih fr h hv
        · rename_i f0 hf0
          split at h
          · simp at h
          · rename_i w0 hw0
            split at h
            · simp at h
            · rename_i fr' hrest
              cases h
              obtain ⟨w, hw, hl⟩ := ih fr' hrest hv
              refine ⟨w, hw, ?_⟩
              simpa [alLookup, hk0] using hl

/-- A non-paginated `_get_data` call returns the response body as is —
in particular it performs no status check. -/
lemma _get_data_unpaginated (env : Env) (fuel : Nat) (url : String) :
    _get_data env fuel url false = .ok (env.getResp url).body := by
  cases fuel <;> rfl

/-- Following a page chain concatenates the `results` pages in order. -/
lemma _get_data_chain (env : Env) {url : String} {pages : List (List JVal)} {n : Nat}
    (h : PageChain env url pages n) :
    ∀ fuel, n ≤ fuel → _get_data env fuel url true = .ok (.arr pages.flatten) := by
  induction h with
  | last url page nv hc hn ht hr =>
      intro fuel _
      cases fuel <;> simp [_get_data, _get_data_step, hc, hn, ht, hr]
  | step url page u rest n hc hn hne hr hch ih =>
      intro fuel hfuel
      obtain ⟨fuel', rfl⟩ : ∃ f', fuel = f' + 1 := ⟨fuel - 1, by omega⟩
      have ht : truthy (.str u) = true := by simpa [truthy] using hne
      have hrec := ih fuel' (by omega)
      simp [_get_data, _get_data_step, hc, hn, ht, hr, hrec, pyAdd]

lemma rows_to_dict_forall₂ (names : List (String × Field)) :
    ∀ (rows : List JVal) (acc res : List (JVal × JVal)),
    rows_to_dict names rows acc = .ok res →
    (∀ d ∈ rows, ∀ i, d.getItem "id" = .ok i → ∀ p ∈ acc, JVal.beq p.1 i = false) →
    rows.Pairwise (fun d d' => ∀ i i', d.getItem "id" = .ok i → d'.getItem "id" = .ok i' →
      JVal.beq i i' = false) →
    ∃ tail, res = acc ++ tail ∧ List.Forall₂ (RowOk names) rows tail := by
  intro rows
  induction rows with
  | nil =>
      intro acc res h _ _
      simp only [rows_to_dict, Except.ok.injEq] at h
      exact ⟨[], by simp [h], List.Forall₂.nil⟩
  | cons d rest ih =>
      intro acc res h hdisj hpw
      simp only [rows_to_dict] at h
      split at h
      · simp at h
      · rename_i rid hrid
        split at h
        · simp at h
        · rename_i kvs hkvs
          split at h
          · simp at h
          · rename_i fr hfr
            have hjd : jdSet acc rid (.obj fr) = acc ++ [(rid, .obj fr)] :=
              jdSet_append _ _ _ (fun p hp => hdisj d (by simp) rid hrid p hp)
            rw [hjd] at h
            have hdisj' : ∀ d' ∈ rest, ∀ i, d'.getItem "id" = .ok i →
                ∀ p ∈ acc ++ [(rid, .obj fr)], JVal.beq p.1 i = false := by
              intro d' hd' i hi p hp
              rcases List.mem_append.mp hp with hpa | hpb
              · exact hdisj d' (by simp [hd']) i hi p hpa
              · have hp1 : p = (rid, .obj fr) := by simpa using hpb
                subst hp1
                exact (List.pairwise_cons.mp hpw).1 d' hd' rid i hrid hi
            obtain ⟨tail, htail, hfa⟩ := ih _ _ h hdisj' (List.pairwise_cons.mp hpw).2
            refine ⟨(rid, .obj fr) :: tail, ?_, ?_⟩
            · simp [htail]
            · exact List.Forall₂.cons ⟨hrid, kvs, fr, hkvs, hfr, rfl⟩ hfa

lemma resolve_branch (env : Env) (table_id : Int) (fields_all : List Field)
    (writable_only : Bool) (h : get_fields env table_id = .ok fields_all) :
    (if writable_only then writable_fields env table_id else get_fields env table_id) =
      .ok (resolved_fields fields_all writable_only) := by
  cases writable_only <;> simp [writable_fields, h, resolved_fields]

lemma convert_selects_field_keys (d d' : List (String × JVal)) (f : Field)
    (h : convert_selects_field d f = .ok d') : d'.map Prod.fst = d.map Prod.fst := by
  simp only [convert_selects_field] at h
  split at h
  · cases h; rfl
  · split at h
    · cases h; rfl
    · rename_i cur hcur
      split at h
      · cases h; rfl
      · split at h
        · split at h
          · simp at h
          · rename_i cv hcv
            cases h
            exact alSet_map_fst_of_lookup d f.name cv cur hcur
        · split at h
          · split at h
            · simp at h
            · rename_i svs hsvs
              split at h
              · simp at h
              · rename_i nv hnv
                cases h
                exact alSet_map_fst_of_lookup d f.name (.arr nv) cur hcur
          · cases h; rfl

lemma convert_selects_field_ne (d d' : List (String × JVal)) (f : Field) (k : String)
    (h : convert_selects_field d f = .ok d') (hk : f.name ≠ k) :
    alLookup d' k = alLookup d k := by
  simp only [convert_selects_field] at h
  split at h
  · cases h; rfl
  · split at h
    · cases h; rfl
    · rename_i cur hcur
      split at h
      · cases h; rfl
      · split at h
        · split at h
          · simp at h
          · rename_i cv hcv
            cases h
            exact alLookup_alSet_ne d f.name k cv (Ne.symm hk)
        · split at h
          · split at h
            · simp at h
            · rename_i svs hsvs
              split at h
              · simp at h
              · rename_i nv hnv
                cases h
                exact alLookup_alSet_ne d f.name k (.arr nv) (Ne.symm hk)
          · cases h; rfl

/-- A read-only or non-select field never changes the dict. -/
lemma convert_selects_field_id (d : List (String × JVal)) (f : Field)
    (hc : f.read_only = true ∨
      (f.type ≠ "single_select" ∧ f.type ≠ "multiple_select")) :
    convert_selects_field d f = .ok d := by
  rcases hc with hro | ⟨h1, h2⟩
  · simp [convert_selects_field, hro]
  · by_cases hro : f.read_only
    · simp [convert_selects_field, hro]
    · cases hcur : alLookup d f.name with
      | none => simp [convert_selects_field, hro, hcur]
      | some cur =>
          by_cases h0 : (JVal.beq cur .null || JVal.beq cur (.arr [])) = true
          · simp [convert_selects_field, hro, hcur, h0]
          · simp [convert_selects_field, hro, hcur, h0, h1, h2]

/-- A null or empty-list value is skipped (explicit clear signal). -/
lemma convert_selects_field_null (d : List (String × JVal)) (f : Field) (v : JVal)
    (hv : alLookup d f.name = some v)
    (h0 : (JVal.beq v .null || JVal.beq v (.arr [])) = true) :
    convert_selects_field d f = .ok d := by
  by_cases hro : f.read_only
  · simp [convert_selects_field, hro]
  · simp [convert_selects_field, hro, hv, h0]

lemma _convert_selects_keys :
    ∀ (fs : List Field) (d res : List (String × JVal)),
    _convert_selects d fs = .ok res → res.map Prod.fst = d.map Prod.fst := by
  intro fs
  induction fs with
  | nil =>
      intro d res h
      simp only [_convert_selects, Except.ok.injEq] at h
      rw [h]
  | cons g rest ih =>
      intro d res h
      simp only [_convert_selects] at h
      split at h
      · simp at h
      · rename_i d' hstep
        exact (ih d' res h).trans (convert_selects_field_keys d d' g hstep)

lemma _convert_selects_frame :
    ∀ (fs : List Field) (d res : List (String × JVal)) (k : String),
    (∀ g ∈ fs, g.name = k → g.read_only = true ∨
        (g.type ≠ "single_select" ∧ g.type ≠ "multiple_select")) →
    _convert_selects d fs = .ok res → alLookup res k = alLookup d k := by
  intro fs
  induction fs with
  | nil =>
      intro d res k _ h
      simp only [_convert_selects, Except.ok.injEq] at h
      rw [h]
  | cons g rest ih =>
      intro d res k hc h
      simp only [_convert_selects] at h
      split at h
      · simp at h
      · rename_i d' hstep
        have hpres : alLookup d' k = alLookup d k := by
          by_cases hgk : g.name = k
          · rw [convert_selects_field_id d g (hc g (by simp) hgk)] at hstep
            cases hstep
            rfl
          · exact convert_selects_field_ne d d' g k hstep hgk
        exact (ih d' res k (fun g' hg' => hc g' (by simp [hg'])) h).trans hpres

lemma _convert_selects_null_frame :
    ∀ (fs : List Field) (d res : List (String × JVal)) (k : String) (v : JVal),
    alLookup d k = some v → (JVal.beq v .null || JVal.beq v (.arr [])) = true →
    _convert_selects d fs = .ok res → alLookup res k = some v := by
  intro fs
  induction fs with
  | nil =>
      intro d res k v hv _ h
      simp only [_convert_selects, Except.ok.injEq] at h
      exact h ▸ hv
  | cons g rest ih =>
      intro d res k v hv h0 h
      simp only [_convert_selects] at h
      split at h
      · simp at h
      · rename_i d' hstep
        have hv' : alLookup d' k = some v := by
          by_cases hgk : g.name = k
          · rw [convert_selects_field_null d g v (hgk ▸ hv) h0] at hstep
            cases hstep
            exact hv
          · rw [convert_selects_field_ne d d' g k hstep hgk]
            exact hv
        exact ih d' res k v hv' h0 h

/-- The head field's name is absent from the tail when names are nodup,
so the tail's fold leaves that key alone. -/
lemma _convert_selects_frame_of_nodup (rest : List Field) (g : Field)
    (hnd : ((g :: rest).map Field.name).Nodup)
    (d res : List (String × JVal))
    (h : _convert_selects d rest = .ok res) :
    alLookup res g.name = alLookup d g.name := by
  refine _convert_selects_frame rest d res g.name ?_ h
  intro g' hg' hname
  exfalso
  have : g.name ∈ rest.map Field.name := hname ▸ List.mem_map_of_mem Field.name hg'
  exact (List.nodup_cons.mp (by simpa using hnd)).1 this

lemma _convert_selects_found :
    ∀ (fs : List Field) (d res : List (String × JVal)) (f : Field) (v : JVal),
    f ∈ fs → (fs.map Field.name).Nodup → f.read_only = false →
    alLookup d f.name = some v → (JVal.beq v .null || JVal.beq v (.arr [])) = false →
    _convert_selects d fs = .ok res →
    (f.type = "single_select" →
       ∃ w, convert_option v f.select_options = .ok w ∧ alLookup res f.name = some w)
  ∧ (f.type = "multiple_select" →
       ∃ svs nv, pyIter v = .ok svs ∧
         mapExcept (fun sv => convert_option sv f.select_options) svs = .ok nv ∧
         alLookup res f.name = some (.arr nv)) := by
  intro fs
  induction fs with
  | nil => intro d res f v hf; cases hf
  | cons g rest ih =>
      intro d res f v hf hnd hro hv h0 h
      simp only [_convert_selects] at h
      split at h
      · simp at h
      · rename_i d' hstep
        rcases List.mem_cons.mp hf with rfl | hf'
        · simp only [convert_selects_field, hro, Bool.false_eq_true, if_false,
            hv, h0] at hstep
          constructor
          · intro hts
            rw [if_pos hts] at hstep
            split at hstep
            · simp at hstep
            · rename_i w hco
              cases hstep
              refine ⟨w, hco, ?_⟩
              rw [_convert_selects_frame_of_nodup rest f hnd _ _ h]
              exact alLookup_alSet_self d f.name w
          · intro htm
            have hts : f.type ≠ "single_select" := by rw [htm]; decide
            rw [if_neg hts, if_pos htm] at hstep
            split at hstep
            · simp at hstep
            · rename_i svs hit
              split at hstep
              · simp at hstep
              · rename_i nv hme
                cases hstep
                refine ⟨svs, nv, hit, hme, ?_⟩
                rw [_convert_selects_frame_of_nodup rest f hnd _ _ h]
                exact alLookup_alSet_self d f.name (.arr nv)
        · have hgf : g.name ≠ f.name := by
            intro he
            have : f.name ∈ rest.map Field.name := List.mem_map_of_mem Field.name hf'
            exact (List.nodup_cons.mp (by simpa using hnd)).1 (he ▸ this)
          have hv' : alLookup d' f.name = some v := by
            rw [convert_selects_field_ne d d' g f.name hstep hgf]
            exact hv
          exact ih d' res f v hf' (List.nodup_cons.mp (by simpa using hnd)).2 hro hv' h0 h

lemma _convert_selects_stuck :
    ∀ (fs : List Field) (d : List (String × JVal)) (f : Field) (v : JVal),
    f ∈ fs → (fs.map Field.name).Nodup → f.read_only = false →
    alLookup d f.name = some v → (JVal.beq v .null || JVal.beq v (.arr [])) = false →
    ((f.type = "single_select" ∧ ∃ e, convert_option v f.select_options = .error e)
     ∨ (f.type = "multiple_select" ∧ ∃ svs e, pyIter v = .ok svs ∧
          mapExcept (fun sv => convert_option sv f.select_options) svs = .error e)) →
    ∀ res, _convert_selects d fs ≠ .ok res := by
  intro fs
  induction fs with
  | nil => intro d f v hf; cases hf
  | cons g rest ih =>
      intro d f v hf hnd hro hv h0 hbad res h
      simp only [_convert_selects] at h
      split at h
      · simp at h
      · rename_i d' hstep
        rcases List.mem_cons.mp hf with rfl | hf'
        · simp only [convert_selects_field, hro, Bool.false_eq_true, if_false,
            hv, h0] at hstep
          rcases hbad with ⟨hts, e, hco⟩ | ⟨htm, svs, e, hit, hme⟩
          · rw [if_pos hts, hco] at hstep
            simp at hstep
          · have hts : f.type ≠ "single_select" := by rw [htm]; decide
            rw [if_neg hts, if_pos htm, hit] at hstep
            simp only [hme] at hstep
            simp at hstep
        · have hgf : g.name ≠ f.name := by
            intro he
            have : f.name ∈ rest.map Field.name := List.mem_map_of_mem Field.name hf'
            exact (List.nodup_cons.mp (by simpa using hnd)).1 (he ▸ this)
          have hv' : alLookup d' f.name = some v := by
            rw [convert_selects_field_ne d d' g f.name hstep hgf]
            exact hv
          exact ih d' f v hf' (List.nodup_cons.mp (by simpa using hnd)).2 hro hv' h0 hbad res h

lemma entry_has_id_of_get (e v : JVal) (h : pyDictGet e "id" = .ok v) :
    entry_has_id e = !(JVal.beq v .null) := by
  cases e <;> simp [pyDictGet] at h
  case obj kvs => simp [entry_has_id, h]

lemma partition_entries_spec :
    ∀ (entries upd new : List JVal), partition_entries entries = .ok (upd, new) →
    upd = entries.filter entry_has_id ∧
    new = entries.filter (fun e => !entry_has_id e) := by
  intro entries
  induction entries with
  | nil =>
      intro upd new h
      simp only [partition_entries, Except.ok.injEq, Prod.mk.injEq] at h
      exact ⟨by simp [← h.1], by simp [← h.2]⟩
  | cons e rest ih =>
      intro upd new h
      simp only [partition_entries] at h
      split at h
      · simp at h
      · rename_i v hv
        split at h
        · simp at h
        · rename_i upd' new' hrest
          have hh := entry_has_id_of_get e v hv
          obtain ⟨ih1, ih2⟩ := ih upd' new' hrest
          split at h
          · rename_i hbeq
            cases h
            have hhas : entry_has_id e = false := by simp [hh, hbeq]
            exact ⟨by simp [List.filter_cons, hhas, ih1],
                   by simp [List.filter_cons, hhas, ih2]⟩
          · rename_i hbeq
            cases h
            have hhas : entry_has_id e = true := by
              simp [hh]
              simpa using hbeq
            exact ⟨by simp [List.filter_cons, hhas, ih1],
                   by simp [List.filter_cons, hhas, ih2]⟩

lemma batch_catch_ok (ids : List JVal) : batch_catch (.ok ids) = .ok [] := rfl

lemma batch_catch_http (s : Nat) (b : JVal) :
    batch_catch (.error (.httpError s b)) = .ok [b] := rfl

lemma batch_catch_non_http (r : Except PyErr (List JVal)) (e : PyErr) (h : r = .error e)
    (hno : ∀ s b, e ≠ .httpError s b) : batch_catch r = .error e := by
  subst h
  cases e with
  | httpError s b => exact absurd rfl (hno s b)
  | runtimeError m => rfl
  | keyError k => rfl
  | typeError m => rfl
  | convertError v opts => rfl

lemma add_data_batch_eq (env : Env) (database_url : String) (table_id : Int)
    (entries upd new : List JVal)
    (hpart : partition_entries entries = .ok (upd, new)) :
    add_data_batch env database_url table_id entries =
      match (if new.isEmpty then Except.ok [] else
              batch_catch (_create_rows env database_url table_id new)) with
      | .error e => .error e
      | .ok errs_new =>
          match (if upd.isEmpty then Except.ok [] else
                  batch_catch (_update_rows env database_url table_id upd)) with
          | .error e => .error e
          | .ok errs_upd => .ok (errs_new ++ errs_upd) := by
  simp [add_data_batch, hpart]

lemma list_isEmpty_false {α : Type} (l : List α) (h : l ≠ []) : l.isEmpty = false := by
  cases l with
  | nil => exact absurd rfl h
  | cons a t => rfl

lemma seen_tables_next_some (l : List Int) (t : Int) :
    seen_tables_next (some l) t = l ++ [t] := by
  cases l <;> simp [seen_tables_next]

lemma get_entry_unlinked_ok (env : Env) (database_url : String) (table_id entry_id : Int)
    (seen : Option (List Int)) (fr : List (String × JVal)) (sn : List Int)
    (h : get_entry_unlinked env database_url table_id entry_id seen = .ok (fr, sn)) :
    entry_row env database_url table_id entry_id = .ok fr ∧
    sn = seen_tables_next seen table_id := by
  simp only [get_entry_unlinked] at h
  split at h
  · simp at h
  · rename_i fr' hrow
    cases h
    exact ⟨hrow, rfl⟩

lemma hydrate_ids_spec (env : Env) (database_url : String) (lt : Int) :
    ∀ (es : List JVal) (sn : List Int) (rows : List JVal) (sn' : List Int),
    hydrate_ids env database_url lt es sn = .ok (rows, sn') →
    (∃ ext, sn' = sn ++ ext) ∧ List.Forall₂ (SubRowOk env database_url lt) es rows := by
  intro es
  induction es with
  | nil =>
      intro sn rows sn' h
      simp only [hydrate_ids, Except.ok.injEq, Prod.mk.injEq] at h
      exact ⟨⟨[], by simp [← h.2]⟩, by rw [← h.1]; exact List.Forall₂.nil⟩
  | cons e rest ih =>
      intro sn rows sn' h
      simp only [hydrate_ids] at h
      split at h
      · simp at h
      · rename_i n hi
        split at h
        · simp at h
        · rename_i row sn₂ hsub
          split at h
          · simp at h
          · cases h
            rename_i xd rows' hrest
            obtain ⟨⟨ext, hext⟩, hfa⟩ := ih sn₂ rows' sn' hrest
            obtain ⟨hrow, hsn₂⟩ := get_entry_unlinked_ok env database_url lt n (some sn)
              row sn₂ hsub
            refine ⟨⟨[lt] ++ ext, ?_⟩, ?_⟩
            · rw [hext, hsn₂, seen_tables_next_some, List.append_assoc]
            · exact List.Forall₂.cons ⟨n, row, hi, hrow, rfl⟩ hfa
      · simp at h

lemma hydrate_fields_ext (env : Env) (database_url : String) (kvs : List (String × JVal))
    (aliased : Bool) :
    ∀ (lfs : List Field) (fd : List (String × JVal)) (sn : List Int)
      (fd' : List (String × JVal)) (sn' : List Int),
    hydrate_fields env database_url kvs aliased lfs fd sn = .ok (fd', sn') →
    ∃ ext, sn' = sn ++ ext := by
  intro lfs
  induction lfs with
  | nil =>
      intro fd sn fd' sn' h
      simp only [hydrate_fields, Except.ok.injEq, Prod.mk.injEq] at h
      exact ⟨[], by simp [← h.2]⟩
  | cons f rest ih =>
      intro fd sn fd' sn' h
      simp only [hydrate_fields] at h
      split at h
      · split at h
        · split at h
          · simp at h
          · rename_i es hes
            split at h
            · simp at h
            · rename_i rows sn₂ hids
              obtain ⟨ext₁, hext₁⟩ := (hydrate_ids_spec env database_url
                f.link_row_table_id es sn rows sn₂ hids).1
              obtain ⟨ext₂, hext₂⟩ := ih _ _ _ _ h
              exact ⟨ext₁ ++ ext₂, by rw [hext₂, hext₁, List.append_assoc]⟩
        · exact ih _ _ _ _ h
      · exact ih _ _ _ _ h

lemma hydrate_fields_skip (env : Env) (database_url : String) (kvs : List (String × JVal)) :
    ∀ (lfs : List Field) (fd : List (String × JVal)) (sn : List Int),
    (∀ g ∈ lfs, g.link_row_table_id ∈ sn) →
    hydrate_fields env database_url kvs true lfs fd sn = .ok (fd, sn) := by
  intro lfs
  induction lfs with
  | nil => intro fd sn _; rfl
  | cons f rest ih =>
      intro fd sn hall
      have hc : sn.contains f.link_row_table_id = true :=
        List.elem_eq_true_of_mem (hall f (by simp))
      simp only [hydrate_fields, hc, Bool.not_true, Bool.or_false, if_false]
      exact ih fd sn (fun g hg => hall g (by simp [hg]))

lemma hydrate_fields_frame (env : Env) (database_url : String) (kvs : List (String × JVal))
    (aliased : Bool) :
    ∀ (lfs : List Field) (fd : List (String × JVal)) (sn : List Int)
      (fd' : List (String × JVal)) (sn' : List Int) (k : String),
    hydrate_fields env database_url kvs aliased lfs fd sn = .ok (fd', sn') →
    (∀ g ∈ lfs, g.name ≠ k) →
    alLookup fd' k = alLookup fd k := by
  intro lfs
  induction lfs with
  | nil =>
      intro fd sn fd' sn' k h _
      simp only [hydrate_fields, Except.ok.injEq, Prod.mk.injEq] at h
      rw [← h.1]
  | cons f rest ih =>
      intro fd sn fd' sn' k h hne
      simp only [hydrate_fields] at h
      split at h
      · split at h
        · split at h
          · simp at h
          · rename_i es hes
            split at h
            · simp at h
            · rename_i rows sn₂ hids
              rw [ih _ _ _ _ k h (fun g hg => hne g (by simp [hg]))]
              exact alLookup_alSet_ne fd f.name k (.arr rows) (Ne.symm (hne f (by simp)))
        · exact ih _ _ _ _ k h (fun g hg => hne g (by simp [hg]))
      · exact ih _ _ _ _ k h (fun g hg => hne g (by simp [hg]))

lemma hydrate_fields_lookup (env : Env) (database_url : String)
    (kvs : List (String × JVal)) :
    ∀ (lfs : List Field) (fd : List (String × JVal)) (sn : List Int)
      (fd' : List (String × JVal)) (sn' : List Int),
    hydrate_fields env database_url kvs false lfs fd sn = .ok (fd', sn') →
    (lfs.map Field.name).Nodup →
    ∀ g ∈ lfs, ∀ xs, alLookup kvs g.name = some (.arr xs) → truthy (.arr xs) = true →
    ∃ rows, alLookup fd' g.name = some (.arr rows) ∧
      List.Forall₂ (SubRowOk env database_url g.link_row_table_id) xs rows := by
  intro lfs
  induction lfs with
  | nil => intro fd sn fd' sn' _ _ g hg; cases hg
  | cons f rest ih =>
      intro fd sn fd' sn' h hnd g hg xs hxs htr
      have hnd0 := hnd
      simp only [List.map_cons, List.nodup_cons] at hnd0
      simp only [hydrate_fields, Bool.not_false, Bool.true_or, if_true] at h
      rcases List.mem_cons.mp hg with rfl | hg'
      · rw [hxs] at h
        simp only [Option.getD_some, htr, if_true] at h
        split at h
        · simp at h
        · rename_i es hes
          have hes' : es = xs := by simpa [pyIter] using hes.symm
          subst hes'
          split at h
          · simp at h
          · rename_i rows sn₂ hids
            refine ⟨rows, ?_, (hydrate_ids_spec env database_url g.link_row_table_id
              es sn rows sn₂ hids).2⟩
            rw [hydrate_fields_frame env database_url kvs false rest _ _ _ _ g.name h
              (fun g' hg' hname => hnd0.1
                (hname ▸ List.mem_map_of_mem Field.name hg'))]
            exact alLookup_alSet_self fd g.name (.arr rows)
      · have hnd' := hnd0.2
        split at h
        · split at h
          · simp at h
          · rename_i es hes
            split at h
            · simp at h
            · rename_i rows sn₂ hids
              exact ih _ _ _ _ h hnd' g hg' xs hxs htr
        · exact ih _ _ _ _ h hnd' g hg' xs hxs htr

/-- `get_entry` with `linked = false` is exactly the fetch-and-format
path plus the `seen_tables_next` update: no hydration happens. -/
lemma get_entry_false_eq_unlinked (env : Env) (database_url : String)
    (table_id entry_id : Int) (seen : Option (List Int)) :
    get_entry env database_url table_id entry_id false seen =
      get_entry_unlinked env database_url table_id entry_id seen := by
  cases hf : get_fields env table_id with
  | error err =>
      simp [get_entry, get_entry_unlinked, entry_row, _get_data, _get_data_step, hf]
  | ok fields =>
      cases hk : pyItems (env.getResp (row_url database_url table_id entry_id)).body with
      | error err =>
          simp [get_entry, get_entry_unlinked, entry_row, _get_data, _get_data_step, hf, hk]
      | ok kvs =>
          cases hfr : format_row (mkNames fields) kvs with
          | error err =>
              simp [get_entry, get_entry_unlinked, entry_row, _get_data, _get_data_step,
                hf, hk, hfr]
          | ok fr =>
              simp [get_entry, get_entry_unlinked, entry_row, _get_data, _get_data_step,
                hf, hk, hfr]

lemma get_entry_linked_eq (env : Env) (database_url : String) (table_id entry_id : Int)
    (seen : Option (List Int)) (fieldsList : List Field) (kvs : List (String × JVal))
    (fr₀ : List (String × JVal))
    (hf : get_fields env table_id = .ok fieldsList)
    (hk : pyItems (env.getResp (row_url database_url table_id entry_id)).body = .ok kvs)
    (hfr : format_row (mkNames fieldsList) kvs = .ok fr₀) :
    get_entry env database_url table_id entry_id true seen =
      hydrate_fields env database_url kvs (seen_aliased seen)
        (fieldsList.filter (fun f => f.type == "link_row")) fr₀
        (seen_tables_next seen table_id) := by
  simp [get_entry, _get_data, _get_data_step, hf, hk, hfr]

lemma get_entry_err_fields (env : Env) (database_url : String) (table_id entry_id : Int)
    (linked : Bool) (seen : Option (List Int)) (err : PyErr)
    (hf : get_fields env table_id = .error err) :
    get_entry env database_url table_id entry_id linked seen = .error err := by
  simp [get_entry, _get_data, _get_data_step, hf]

lemma get_entry_err_items (env : Env) (database_url : String) (table_id entry_id : Int)
    (linked : Bool) (seen : Option (List Int)) (fieldsList : List Field) (err : PyErr)
    (hf : get_fields env table_id = .ok fieldsList)
    (hk : pyItems (env.getResp (row_url database_url table_id entry_id)).body = .error err) :
    get_entry env database_url table_id entry_id linked seen = .error err := by
  simp [get_entry, _get_data, _get_data_step, hf, hk]

lemma get_entry_err_format (env : Env) (database_url : String) (table_id entry_id : Int)
    (linked : Bool) (seen : Option (List Int)) (fieldsList : List Field)
    (kvs : List (String × JVal)) (err : PyErr)
    (hf : get_fields env table_id = .ok fieldsList)
    (hk : pyItems (env.getResp (row_url database_url table_id entry_id)).body = .ok kvs)
    (hfr : format_row (mkNames fieldsList) kvs = .error err) :
    get_entry env database_url table_id entry_id linked seen = .error err := by
  cases linked <;> simp [get_entry, _get_data, _get_data_step, hf, hk, hfr]

end Lemmas

/-- Claim C1: for every chain of paginated listing responses, `get_data`
follows the `next` links, concatenating the `results` pages in order
until `next` is falsy, and returns a mapping keyed by row id containing
every fetched row (no duplicates, no loss when row ids are distinct)
restricted to the resolved field set (writable fields by default, all
fields otherwise) with each value formatted per its field's type; a
listing response lacking a `results` key raises a protocol
`RuntimeError`. -/
theorem get_data_pagination_spec (env : Env) (database_url : String) (table_id : Int)
    (fuel : Nat) (writable_only : Bool) (fields_all : List Field)
    (hfields : get_fields env table_id = .ok fields_all) :
    (∀ pages n, PageChain env (row_list_url database_url table_id) pages n → n ≤ fuel →
       get_data env database_url fuel table_id writable_only =
         rows_to_dict (mkNames (resolved_fields fields_all writable_only)) pages.flatten [])
  ∧ (∀ rows res,
       rows.Pairwise (fun d d' => ∀ i i', d.getItem "id" = .ok i →
         d'.getItem "id" = .ok i' → JVal.beq i i' = false) →
       rows_to_dict (mkNames (resolved_fields fields_all writable_only)) rows [] = .ok res →
       List.Forall₂ (RowOk (mkNames (resolved_fields fields_all writable_only))) rows res)
  ∧ (∀ kvs fr,
       format_row (mkNames (resolved_fields fields_all writable_only)) kvs = .ok fr →
       (∀ k, alLookup (mkNames (resolved_fields fields_all writable_only)) k = none →
          alLookup fr k = none)
     ∧ (∀ k f v, alLookup (mkNames (resolved_fields fields_all writable_only)) k = some f →
          alLookup kvs k = some v → ∃ w, format_value v f = .ok w ∧ alLookup fr k = some w))
  ∧ (pyContainsStr (env.getResp (row_list_url database_url table_id)).body "results" = false →
       get_data env database_url fuel table_id writable_only =
         .error (.runtimeError ("Could not get data from " ++
           row_list_url database_url table_id))) := by
  refine ⟨?_, ?_, ?_, ?_⟩
  · intro pages n hch hn
    have hg := _get_data_chain env hch fuel hn
    simp [get_data, resolve_branch env table_id fields_all writable_only hfields, hg, pyIter]
  · intro rows res hpw h
    obtain ⟨tail, htail, hfa⟩ :=
      rows_to_dict_forall₂ (mkNames (resolved_fields fields_all writable_only)) rows [] res h
        (by simp) hpw
    simpa [htail] using hfa
  · intro kvs fr h
    exact ⟨fun k hk => format_row_restrict _ _ _ h k hk,
           fun k f v hf hv => format_row_lookup _ _ _ h k f v hf hv⟩
  · intro hmiss
    cases fuel <;>
      simp [get_data, resolve_branch env table_id fields_all writable_only hfields,
        _get_data, _get_data_step, hmiss]

/-- Witness for C1 at a concrete two-page chain: both pages' rows arrive,
keyed by row id, restricted to the writable field `a`. -/
theorem get_data_pagination_spec_witness :
    get_data envW1 "db" 5 1 true =
      .ok [(.int 1, .obj [("a", .int 10)]), (.int 2, .obj [("a", .int 20)])] := by
  have c2 : PageChain envW1 "u2" [[.obj [("id", .int 2), ("a", .int 20)]]] 0 :=
    PageChain.last "u2" [.obj [("id", .int 2), ("a", .int 20)]] .null rfl rfl rfl rfl
  have c1 : PageChain envW1 (row_list_url "db" 1)
      [[.obj [("id", .int 1), ("a", .int 10)]], [.obj [("id", .int 2), ("a", .int 20)]]] 1 :=
    PageChain.step (row_list_url "db" 1) [.obj [("id", .int 1), ("a", .int 10)]] "u2"
      [[.obj [("id", .int 2), ("a", .int 20)]]] 0
      rfl rfl (by decide) rfl c2
  have h := (get_data_pagination_spec envW1 "db" 1 5 true [fieldW1] rfl).1
    [[.obj [("id", .int 1), ("a", .int 10)]], [.obj [("id", .int 2), ("a", .int 20)]]] 1
    c1 (by omega)
  exact h.trans rfl

/-- Claim C3: in `convert_selects`, for every non-read-only field of the
field list whose key is present with a value that is neither null nor an
empty list: a `single_select` integer value is kept unchanged, a
non-integer value is replaced by the id of the option whose value equals
it, and a missing option is a hard error identifying the offending value
and the candidate option set; `multiple_select` applies the same rule to
every list element, any unmatched element being a hard error. -/
theorem convert_selects_option_rule (data : List (String × JVal)) (fields : List Field)
    (f : Field) (hf : f ∈ fields) (hnd : (fields.map Field.name).Nodup)
    (hro : f.read_only = false) (v : JVal) (hv : alLookup data f.name = some v)
    (hnn : (JVal.beq v .null || JVal.beq v (.arr [])) = false) :
    (∀ (n : Int) (opts : List SelectOption), convert_option (.int n) opts = .ok (.int n))
  ∧ (∀ (w : JVal) (opts : List SelectOption) (opt : SelectOption), pyIsInt w = false →
       opts.find? (fun o => JVal.beq o.value w) = some opt →
       convert_option w opts = .ok (.int opt.id))
  ∧ (∀ (w : JVal) (opts : List SelectOption), pyIsInt w = false →
       opts.find? (fun o => JVal.beq o.value w) = none →
       convert_option w opts = .error (.convertError w opts))
  ∧ (f.type = "single_select" → ∀ res, _convert_selects data fields = .ok res →
       ∃ w, convert_option v f.select_options = .ok w ∧ alLookup res f.name = some w)
  ∧ (f.type = "single_select" → ∀ e, convert_option v f.select_options = .error e →
       ∀ res, _convert_selects data fields ≠ .ok res)
  ∧ (f.type = "multiple_select" → ∀ xs, v = .arr xs → ∀ res,
       _convert_selects data fields = .ok res →
       ∃ nv, mapExcept (fun sv => convert_option sv f.select_options) xs = .ok nv ∧
         alLookup res f.name = some (.arr nv))
  ∧ (f.type = "multiple_select" → ∀ xs, v = .arr xs →
       ∀ e, mapExcept (fun sv => convert_option sv f.select_options) xs = .error e →
       ∀ res, _convert_selects data fields ≠ .ok res) := by
  refine ⟨?_, ?_, ?_, ?_, ?_, ?_, ?_⟩
  · intro n opts
    simp [convert_option, pyIsInt]
  · intro w opts opt hw hfind
    simp [convert_option, hw, hfind]
  · intro w opts hw hfind
    simp [convert_option, hw, hfind]
  · intro hts res h
    exact ((_convert_selects_found fields data res f v hf hnd hro hv hnn h).1) hts
  · intro hts e hco res h
    exact _convert_selects_stuck fields data f v hf hnd hro hv hnn
      (Or.inl ⟨hts, e, hco⟩) res h
  · intro htm xs hxs res h
    subst hxs
    obtain ⟨svs, nv, hit, hme, hl⟩ :=
      ((_convert_selects_found fields data res f (.arr xs) hf hnd hro hv hnn h).2) htm
    have hsvs : xs = svs := by
      simpa [pyIter] using hit
    subst hsvs
    exact ⟨nv, hme, hl⟩
  · intro htm xs hxs e hme res h
    subst hxs
    exact _convert_selects_stuck fields data f (.arr xs) hf hnd hro hv hnn
      (Or.inr ⟨htm, xs, e, rfl, hme⟩) res h

/-- Witness for C3 at concrete data: a display string converts to its
option id through `_convert_selects`, and an integer is kept. -/
theorem convert_selects_option_rule_witness :
    (∃ w, convert_option (.str "Yes") fldS.select_options = .ok w ∧
       alLookup [("s", .int 7)] "s" = some w)
  ∧ convert_option (.int 3) [] = .ok (.int 3) :=
  ⟨(convert_selects_option_rule [("s", .str "Yes")] [fldS] fldS (by simp) (by simp)
      rfl (.str "Yes") rfl rfl).2.2.2.1 rfl [("s", .int 7)] rfl,
   (convert_selects_option_rule [("s", .str "Yes")] [fldS] fldS (by simp) (by simp)
      rfl (.str "Yes") rfl rfl).1 3 []⟩

/-- Claim C4: `convert_selects` never touches its input (the embedding is
pure, mirroring the `deepcopy`); in the returned dict the key set is
exactly the input's, null or empty-list select values are left unchanged,
and keys of fields that are not listed or are not of a select type appear
exactly as given. -/
theorem convert_selects_frame (data : List (String × JVal)) (fields : List Field)
    (data_conv : List (String × JVal))
    (hconv : _convert_selects data fields = .ok data_conv) :
    (data_conv.map Prod.fst = data.map Prod.fst)
  ∧ (∀ k v, alLookup data k = some v →
       (JVal.beq v .null || JVal.beq v (.arr [])) = true →
       alLookup data_conv k = some v)
  ∧ (∀ k, (∀ g ∈ fields, g.name = k →
        g.type ≠ "single_select" ∧ g.type ≠ "multiple_select") →
       alLookup data_conv k = alLookup data k) :=
  ⟨_convert_selects_keys fields data data_conv hconv,
   fun k v hv h0 => _convert_selects_null_frame fields data data_conv k v hv h0 hconv,
   fun k hc => _convert_selects_frame fields data data_conv k
     (fun g hg hk => Or.inr (hc g hg hk)) hconv⟩

/-- Witness for C4 at concrete data: a null select value and an unlisted
key survive conversion untouched. -/
theorem convert_selects_frame_witness :
    alLookup [("x", JVal.int 9), ("s", JVal.null)] "s" = some JVal.null
  ∧ alLookup [("x", JVal.int 9), ("s", JVal.null)] "x" =
      alLookup [("x", JVal.int 9), ("s", JVal.null)] "x" :=
  ⟨(convert_selects_frame [("x", .int 9), ("s", .null)] [fldS]
      [("x", .int 9), ("s", .null)] rfl).2.1 "s" JVal.null rfl rfl,
   (convert_selects_frame [("x", .int 9), ("s", .null)] [fldS]
      [("x", .int 9), ("s", .null)] rfl).2.2 "x"
     (fun g hg hk => by
        have hgf : g = fldS := by simpa using hg
        subst hgf
        exact absurd hk (by decide))⟩

/-- Counterexample to claim C5 as stated: a value supplied for a
read-only field IS sent in the write request.  `envC5`'s create endpoint
returns id 42 exactly when the transmitted body contains the key `ro`;
the call returns 42, so the read-only key was transmitted (unaltered). -/
theorem add_data_readonly_cex :
    add_data envC5 "db" 1 [("ro", JVal.str "x")] none = .ok (.int 42)
  ∧ fldRO.read_only = true := ⟨rfl, rfl⟩

/-- Claim C5 (amended): a value supplied for a read-only field is
excluded from select conversion — it passes through `_convert_selects`
unaltered — but it still appears, unchanged, in the request body
transmitted to the service (the body of the create request is exactly
the converted dict). -/
theorem add_data_readonly_passthrough (env : Env) (database_url : String) (table_id : Int)
    (data : List (String × JVal)) (fields_all : List Field) (f : Field) (v : JVal)
    (data_conv : List (String × JVal))
    (hfields : get_fields env table_id = .ok fields_all)
    (hf : f ∈ fields_all) (hro : f.read_only = true)
    (hnd : (fields_all.map Field.name).Nodup)
    (hv : alLookup data f.name = some v)
    (hconv : _convert_selects data fields_all = .ok data_conv) :
    alLookup data_conv f.name = some v
  ∧ pyContainsStr (.obj data_conv) f.name = true
  ∧ add_data env database_url table_id data none =
      _create_row env database_url table_id data_conv := by
  have h1 : alLookup data_conv f.name = alLookup data f.name :=
    _convert_selects_frame fields_all data data_conv f.name
      (fun g hg hk => Or.inl (by rw [field_name_inj hnd hg hf hk]; exact hro)) hconv
  have h2 : alLookup data_conv f.name = some v := h1.trans hv
  refine ⟨h2, alLookup_contains _ _ _ h2, ?_⟩
  simp [add_data, hfields, hconv, row_id_truthy]

/-- Witness for the amended C5: through `_convert_selects` the read-only
key keeps its value, and the create body is the converted dict. -/
theorem add_data_readonly_passthrough_witness :
    alLookup [("ro", JVal.str "x")] "ro" = some (JVal.str "x")
  ∧ add_data envC5 "db" 1 [("ro", JVal.str "x")] none =
      _create_row envC5 "db" 1 [("ro", JVal.str "x")] :=
  ⟨(add_data_readonly_passthrough envC5 "db" 1 [("ro", JVal.str "x")] [fldRO] fldRO
      (JVal.str "x") [("ro", JVal.str "x")] rfl (by simp) rfl (by simp) rfl rfl).1,
   (add_data_readonly_passthrough envC5 "db" 1 [("ro", JVal.str "x")] [fldRO] fldRO
      (JVal.str "x") [("ro", JVal.str "x")] rfl (by simp) rfl (by simp) rfl rfl).2.2⟩

/-- Counterexample to claim C7 as stated: `add_data` with the given
`row_id = 0` does not issue an update (the update endpoint would have
failed the call with a 500) and does not return the same row id — it
creates and returns the service's new id 7. -/
theorem add_data_zero_row_id_cex :
    add_data envC7 "db" 1 [] (some 0) = .ok (.int 7)
  ∧ _update_row envC7 "db" 1 0 [] = .error (.httpError 500 (.str "update called")) :=
  ⟨rfl, rfl⟩

/-- Claim C7 (amended): when a truthy (non-zero) `row_id` is given,
`add_data` issues an update against that row and returns the same id,
surfacing the update's HTTP error otherwise; when `row_id` is absent —
or zero, which Python's `if row_id:` treats as absent — it issues a
create and returns the id from the response, raising a
malformed-response error when the create response lacks an `id` key. -/
theorem add_data_row_id_spec (env : Env) (database_url : String) (table_id : Int)
    (data : List (String × JVal)) (fields_all : List Field)
    (data_conv : List (String × JVal))
    (hfields : get_fields env table_id = .ok fields_all)
    (hconv : _convert_selects data fields_all = .ok data_conv) :
    (∀ r : Int, r ≠ 0 →
       ((env.patchResp (row_url database_url table_id r) (.obj data_conv)).status < 400 →
          add_data env database_url table_id data (some r) = .ok (.int r))
     ∧ (400 ≤ (env.patchResp (row_url database_url table_id r) (.obj data_conv)).status →
          add_data env database_url table_id data (some r) =
            .error (.httpError
              (env.patchResp (row_url database_url table_id r) (.obj data_conv)).status
              (env.patchResp (row_url database_url table_id r) (.obj data_conv)).body)))
  ∧ ((env.postResp (row_list_url database_url table_id) (.obj data_conv)).status < 400 →
       pyContainsStr (env.postResp (row_list_url database_url table_id)
         (.obj data_conv)).body "id" = true →
       add_data env database_url table_id data none =
         (env.postResp (row_list_url database_url table_id) (.obj data_conv)).body.getItem "id")
  ∧ ((env.postResp (row_list_url database_url table_id) (.obj data_conv)).status < 400 →
       pyContainsStr (env.postResp (row_list_url database_url table_id)
         (.obj data_conv)).body "id" = false →
       add_data env database_url table_id data none =
         .error (.runtimeError "Malformed response"))
  ∧ (add_data env database_url table_id data (some 0) =
       add_data env database_url table_id data none) := by
  refine ⟨?_, ?_, ?_, ?_⟩
  · intro r hr
    have htr : row_id_truthy (some r) = true := by
      simp [row_id_truthy, hr]
    constructor
    · intro hst
      simp [add_data, hfields, hconv, htr, _update_row, raise_for_status, Nat.not_le.mpr hst]
    · intro hst
      simp [add_data, hfields, hconv, htr, _update_row, raise_for_status, hst]
  · intro hst hid
    simp [add_data, hfields, hconv, row_id_truthy, _create_row, raise_for_status,
      Nat.not_le.mpr hst, hid]
  · intro hst hid
    simp [add_data, hfields, hconv, row_id_truthy, _create_row, raise_for_status,
      Nat.not_le.mpr hst, hid]
  · simp [add_data, hfields, hconv, row_id_truthy]

/-- Witness for the amended C7: with a non-zero row id the failing
update's error surfaces; with no row id the create response's id is
returned. -/
theorem add_data_row_id_spec_witness :
    add_data envC7 "db" 1 [] (some 3) = .error (.httpError 500 (.str "update called"))
  ∧ add_data envC7 "db" 1 [] none =
      (envC7.postResp (row_list_url "db" 1) (.obj [])).body.getItem "id" :=
  ⟨((add_data_row_id_spec envC7 "db" 1 [] [] [] rfl rfl).1 3 (by decide)).2 (by decide),
   (add_data_row_id_spec envC7 "db" 1 [] [] [] rfl rfl).2.1 (by decide) rfl⟩

/-- Claim C2: `format_value` is a pure function of the raw value and the
field descriptor; `single_select` returns the object's `value` member or
null for null and errors on any other shape; `multiple_select` and
`link_row` require a list and map the elements' `value` (resp. `id`)
members, erroring otherwise; any other field type passes the raw value
through unchanged. -/
theorem format_value_spec (f : Field) (raw : JVal) :
    (f.type = "single_select" →
       (∀ kvs v, raw = .obj kvs → alLookup kvs "value" = some v →
          format_value raw f = .ok v)
     ∧ (raw = .null → format_value raw f = .ok .null)
     ∧ ((∀ kvs, raw ≠ .obj kvs) → raw ≠ .null →
          format_value raw f = .error (.runtimeError "malformed single_select")))
  ∧ (f.type = "multiple_select" →
       (∀ xs vs, raw = .arr xs → mapExcept (fun v => v.getItem "value") xs = .ok vs →
          format_value raw f = .ok (.arr vs))
     ∧ ((∀ xs, raw ≠ .arr xs) →
          format_value raw f = .error (.runtimeError "malformed multiple_select")))
  ∧ (f.type = "link_row" →
       (∀ xs vs, raw = .arr xs → mapExcept (fun v => v.getItem "id") xs = .ok vs →
          format_value raw f = .ok (.arr vs))
     ∧ ((∀ xs, raw ≠ .arr xs) →
          format_value raw f = .error (.runtimeError "malformed link_row")))
  ∧ (f.type ≠ "single_select" → f.type ≠ "multiple_select" → f.type ≠ "link_row" →
       format_value raw f = .ok raw) := by
  refine ⟨?_, ?_, ?_, ?_⟩
  · intro ht
    refine ⟨?_, ?_, ?_⟩
    · intro kvs v hraw hv
      subst hraw
      simp [format_value, ht, JVal.getItem, hv]
    · intro hraw
      subst hraw
      simp [format_value, ht]
    · intro hobj hnull
      cases raw with
      | obj kvs => exact absurd rfl (hobj kvs)
      | null => exact absurd rfl hnull
      | bool b => simp [format_value, ht]
      | int n => simp [format_value, ht]
      | str s => simp [format_value, ht]
      | arr xs => simp [format_value, ht]
  · intro ht
    refine ⟨?_, ?_⟩
    · intro xs vs hraw hm
      subst hraw
      simp [format_value, ht, hm]
    · intro harr
      cases raw with
      | arr xs => exact absurd rfl (harr xs)
      | null => simp [format_value, ht]
      | bool b => simp [format_value, ht]
      | int n => simp [format_value, ht]
      | str s => simp [format_value, ht]
      | obj kvs => simp [format_value, ht]
  · intro ht
    refine ⟨?_, ?_⟩
    · intro xs vs hraw hm
      subst hraw
      simp [format_value, ht, hm]
    · intro harr
      cases raw with
      | arr xs => exact absurd rfl (harr xs)
      | null => simp [format_value, ht]
      | bool b => simp [format_value, ht]
      | int n => simp [format_value, ht]
      | str s => simp [format_value, ht]
      | obj kvs => simp [format_value, ht]
  · intro h1 h2 h3
    simp [format_value, h1, h2, h3]

/-- Witness for C2 at concrete values: a wire `single_select` object
formats to its display value, null stays null, a bare string errors. -/
theorem format_value_spec_witness :
    format_value (.obj [("id", .int 3), ("value", .str "Yes")])
        ⟨"f", "single_select", false, [], 0⟩ = .ok (.str "Yes")
  ∧ format_value .null ⟨"f", "single_select", false, [], 0⟩ = .ok .null
  ∧ format_value (.str "Yes") ⟨"f", "single_select", false, [], 0⟩ =
      .error (.runtimeError "malformed single_select")
  ∧ format_value (.arr [.obj [("id", .int 5)]]) ⟨"g", "link_row", false, [], 7⟩ =
      .ok (.arr [.int 5]) :=
  ⟨((format_value_spec ⟨"f", "single_select", false, [], 0⟩
      (.obj [("id", .int 3), ("value", .str "Yes")])).1 rfl).1
        [("id", .int 3), ("value", .str "Yes")] (.str "Yes") rfl rfl,
   ((format_value_spec ⟨"f", "single_select", false, [], 0⟩ .null).1 rfl).2.1 rfl,
   ((format_value_spec ⟨"f", "single_select", false, [], 0⟩ (.str "Yes")).1 rfl).2.2
     (fun _ h => JVal.noConfusion h) (fun h => JVal.noConfusion h),
   ((format_value_spec ⟨"g", "link_row", false, [], 7⟩
      (.arr [.obj [("id", .int 5)]])).2.2.1 rfl).1 [.obj [("id", .int 5)]] [.int 5] rfl rfl⟩

/-- Counterexample to claim C8 as stated: an entry that HAS an `id` key,
with value null, is routed to the batch-create call, not the
batch-update call — `envC8`'s update batch succeeds while its create
batch fails with body `"createfail"`, and the call returns that create
failure. -/
theorem add_data_batch_null_id_cex :
    add_data_batch envC8 "db" 1 [JVal.obj [("id", JVal.null)]] = .ok [JVal.str "createfail"]
  ∧ _update_rows envC8 "db" 1 [JVal.obj [("id", JVal.null)]] = .ok [] := ⟨rfl, rfl⟩

/-- Claim C8 (amended): `add_data_batch` partitions entries by whether
`entry.get("id")` is non-null — entries whose `id` is present and
non-null go to one batch-update request, all others (including entries
with `id: null`) to one batch-create request, sent as given with no
select conversion or field filtering; each batch is attempted
independently (create first), an HTTP error on one batch is caught with
its response body appended to the returned list while the other batch
still executes, the returned list is empty exactly when both batches
succeed, and non-HTTP failures are raised rather than collected. -/
theorem add_data_batch_spec (env : Env) (database_url : String) (table_id : Int)
    (entries upd new : List JVal)
    (hpart : partition_entries entries = .ok (upd, new)) :
    (upd = entries.filter entry_has_id)
  ∧ (new = entries.filter (fun e => !entry_has_id e))
  ∧ ((new = [] ∨ ∃ ids, _create_rows env database_url table_id new = .ok ids) →
     (upd = [] ∨ ∃ ids, _update_rows env database_url table_id upd = .ok ids) →
       add_data_batch env database_url table_id entries = .ok [])
  ∧ (∀ s b, _create_rows env database_url table_id new = .error (.httpError s b) →
       new ≠ [] →
       (upd = [] ∨ ∃ ids, _update_rows env database_url table_id upd = .ok ids) →
       add_data_batch env database_url table_id entries = .ok [b])
  ∧ (∀ s b, _update_rows env database_url table_id upd = .error (.httpError s b) →
       upd ≠ [] →
       (new = [] ∨ ∃ ids, _create_rows env database_url table_id new = .ok ids) →
       add_data_batch env database_url table_id entries = .ok [b])
  ∧ (∀ s b s' b', _create_rows env database_url table_id new = .error (.httpError s b) →
       _update_rows env database_url table_id upd = .error (.httpError s' b') →
       new ≠ [] → upd ≠ [] →
       add_data_batch env database_url table_id entries = .ok [b, b'])
  ∧ (∀ e, _create_rows env database_url table_id new = .error e →
       (∀ s b, e ≠ .httpError s b) → new ≠ [] →
       add_data_batch env database_url table_id entries = .error e)
  ∧ (∀ e, _update_rows env database_url table_id upd = .error e →
       (∀ s b, e ≠ .httpError s b) → upd ≠ [] →
       (new = [] ∨ ∃ errs, batch_catch (_create_rows env database_url table_id new) = .ok errs) →
       add_data_batch env database_url table_id entries = .error e) := by
  have heq := add_data_batch_eq env database_url table_id entries upd new hpart
  obtain ⟨hupd, hnew⟩ := partition_entries_spec entries upd new hpart
  refine ⟨hupd, hnew, ?_, ?_, ?_, ?_, ?_, ?_⟩
  · intro hc hu
    have h1 : (if new.isEmpty then Except.ok [] else
        batch_catch (_create_rows env database_url table_id new)) = .ok [] := by
      rcases hc with rfl | ⟨ids, hc⟩
      · simp
      · by_cases he : new.isEmpty <;> simp [he, batch_catch, hc]
    have h2 : (if upd.isEmpty then Except.ok [] else
        batch_catch (_update_rows env database_url table_id upd)) = .ok [] := by
      rcases hu with rfl | ⟨ids, hu⟩
      · simp
      · by_cases he : upd.isEmpty <;> simp [he, batch_catch, hu]
    rw [heq]
    simp [h1, h2]
  · intro s b hc hne hu
    have h1 : (if new.isEmpty then Except.ok [] else
        batch_catch (_create_rows env database_url table_id new)) = .ok [b] := by
      simp [list_isEmpty_false new hne, batch_catch, hc]
    have h2 : (if upd.isEmpty then Except.ok [] else
        batch_catch (_update_rows env database_url table_id upd)) = .ok [] := by
      rcases hu with rfl | ⟨ids, hu⟩
      · simp
      · by_cases he : upd.isEmpty <;> simp [he, batch_catch, hu]
    rw [heq]
    simp [h1, h2]
  · intro s b hu hne hc
    have h1 : (if new.isEmpty then Except.ok [] else
        batch_catch (_create_rows env database_url table_id new)) = .ok [] := by
      rcases hc with rfl | ⟨ids, hc⟩
      · simp
      · by_cases he : new.isEmpty <;> simp [he, batch_catch, hc]
    have h2 : (if upd.isEmpty then Except.ok [] else
        batch_catch (_update_rows env database_url table_id upd)) = .ok [b] := by
      simp [list_isEmpty_false upd hne, batch_catch, hu]
    rw [heq]
    simp [h1, h2]
  · intro s b s' b' hc hu hne hue
    rw [heq]
    simp [list_isEmpty_false new hne, list_isEmpty_false upd hue, batch_catch, hc, hu]
  · intro e hc hno hne
    have h1 : (if new.isEmpty then Except.ok [] else
        batch_catch (_create_rows env database_url table_id new)) = .error e := by
      rw [list_isEmpty_false new hne]
      simpa using batch_catch_non_http _ e hc hno
    rw [heq]
    simp [h1]
  · intro e hu hno hue hcs
    have h1 : ∃ errs, (if new.isEmpty then Except.ok [] else
        batch_catch (_create_rows env database_url table_id new)) = .ok errs := by
      rcases hcs with rfl | ⟨errs, hbc⟩
      · exact ⟨[], by simp⟩
      · by_cases he : new.isEmpty
        · exact ⟨[], by simp [he]⟩
        · exact ⟨errs, by simp [he, hbc]⟩
    obtain ⟨errs, h1⟩ := h1
    have h2 : (if upd.isEmpty then Except.ok [] else
        batch_catch (_update_rows env database_url table_id upd)) = .error e := by
      rw [list_isEmpty_false upd hue]
      simpa using batch_catch_non_http _ e hu hno
    rw [heq]
    simp [h1, h2]

/-- Witness for the amended C8: with one `id: null` entry and one
`id: 4` entry, the create batch (the null-id entry) fails with body
`"createfail"`, the update batch succeeds, and the call returns the
single collected body. -/
theorem add_data_batch_spec_witness :
    add_data_batch envC8 "db" 1
      [JVal.obj [("id", JVal.null)], JVal.obj [("id", JVal.int 4)]] =
      .ok [JVal.str "createfail"] :=
  (add_data_batch_spec envC8 "db" 1
      [JVal.obj [("id", JVal.null)], JVal.obj [("id", JVal.int 4)]]
      [JVal.obj [("id", JVal.int 4)]] [JVal.obj [("id", JVal.null)]] rfl).2.2.2.1
    400 (JVal.str "createfail") rfl (by simp) (Or.inr ⟨[], rfl⟩)

/-- Counterexample to claim C9 as stated: a 500 response to the
single-row fetch does not raise — `get_entry` ignores the status and
formats the body. -/
theorem single_row_fetch_no_raise_cex :
    get_entry envC9 "db" 1 2 false none = .ok ([], [1])
  ∧ (envC9.getResp (row_url "db" 1 2)).status = 500 := ⟨rfl, rfl⟩

/-- Claim C9 (amended): a 4xx/5xx response to a single-row create, a
single-row update, or a field fetch raises a transport error
immediately, aborting the call with no retry; the single-row (and
listing) fetch path `_get_data`, however, performs no status check and
uses the response body whatever the status. -/
theorem http_error_raising_spec :
    (∀ (env : Env) (table_id : Int), 400 ≤ env.fieldsStatus table_id →
       _get_fields env table_id = .error (.httpError (env.fieldsStatus table_id) .null))
  ∧ (∀ (env : Env) (database_url : String) (table_id : Int) (data : List (String × JVal)),
       400 ≤ (env.postResp (row_list_url database_url table_id) (.obj data)).status →
       _create_row env database_url table_id data =
         .error (.httpError
           (env.postResp (row_list_url database_url table_id) (.obj data)).status
           (env.postResp (row_list_url database_url table_id) (.obj data)).body))
  ∧ (∀ (env : Env) (database_url : String) (table_id row_id : Int)
       (data : List (String × JVal)),
       400 ≤ (env.patchResp (row_url database_url table_id row_id) (.obj data)).status →
       _update_row env database_url table_id row_id data =
         .error (.httpError
           (env.patchResp (row_url database_url table_id row_id) (.obj data)).status
           (env.patchResp (row_url database_url table_id row_id) (.obj data)).body))
  ∧ (∀ (env : Env) (fuel : Nat) (url : String),
       _get_data env fuel url false = .ok (env.getResp url).body) := by
  refine ⟨?_, ?_, ?_, ?_⟩
  · intro env tid h
    simp [_get_fields, h]
  · intro env dbUrl tid data h
    simp [_create_row, raise_for_status, h]
  · intro env dbUrl tid rid data h
    simp [_update_row, raise_for_status, h]
  · intro env fuel url
    exact _get_data_unpaginated env fuel url

/-- Witness for the amended C9: `envC8`'s create endpoint answers 400
and `_create_row` surfaces it; a non-paginated fetch returns the body
regardless of status. -/
theorem http_error_raising_spec_witness :
    _create_row envC8 "db" 1 [] = .error (.httpError 400 (.str "createfail"))
  ∧ _get_data envC9 3 "u" false = .ok (.obj []) :=
  ⟨http_error_raising_spec.2.1 envC8 "db" 1 [] (by decide),
   http_error_raising_spec.2.2.2 envC9 3 "u"⟩

/-- Claim C6: link-row hydration is capped at one extra level deep: a
`linked = false` call never hydrates (it is exactly fetch-and-format,
whatever `seen_tables` holds); a sub-row produced by that path carries
its own `link_row` fields as plain id lists; and a `linked = true` call
with untruthy `seen_tables` replaces every non-empty `link_row` value by
the list of referenced rows produced by the `linked = false` path
(`SubRowOk`: fetched and formatted via `entry_row`, never expanded
further). -/
theorem get_entry_depth_cap (env : Env) (database_url : String) :
    (∀ (table_id entry_id : Int) (seen : Option (List Int)),
       get_entry env database_url table_id entry_id false seen =
         get_entry_unlinked env database_url table_id entry_id seen)
  ∧ (∀ (table_id entry_id : Int) (fieldsList : List Field) (kvs : List (String × JVal))
       (sub : List (String × JVal)) (g : Field) (xs ids : List JVal),
       entry_row env database_url table_id entry_id = .ok sub →
       get_fields env table_id = .ok fieldsList →
       pyItems (env.getResp (row_url database_url table_id entry_id)).body = .ok kvs →
       alLookup (mkNames fieldsList) g.name = some g → g.type = "link_row" →
       alLookup kvs g.name = some (.arr xs) →
       mapExcept (fun v => v.getItem "id") xs = .ok ids →
       alLookup sub g.name = some (.arr ids))
  ∧ (∀ (table_id entry_id : Int) (seen : Option (List Int)) (fr : List (String × JVal))
       (sn : List Int) (fieldsList : List Field) (kvs : List (String × JVal)),
       seen_aliased seen = false →
       get_entry env database_url table_id entry_id true seen = .ok (fr, sn) →
       get_fields env table_id = .ok fieldsList →
       pyItems (env.getResp (row_url database_url table_id entry_id)).body = .ok kvs →
       ((fieldsList.filter (fun f => f.type == "link_row")).map Field.name).Nodup →
       ∀ g ∈ fieldsList.filter (fun f => f.type == "link_row"),
         ∀ xs, alLookup kvs g.name = some (.arr xs) → xs ≠ [] →
         ∃ rows, alLookup fr g.name = some (.arr rows) ∧
           List.Forall₂ (SubRowOk env database_url g.link_row_table_id) xs rows) := by
  refine ⟨?_, ?_, ?_⟩
  · intro table_id entry_id seen
    exact get_entry_false_eq_unlinked env database_url table_id entry_id seen
  · intro table_id entry_id fieldsList kvs sub g xs ids hsub hfields hkvs hgf hlink hxs hmap
    have hsub' : format_row (mkNames fieldsList) kvs = .ok sub := by
      simpa [entry_row, _get_data, _get_data_step, hfields, hkvs] using hsub
    obtain ⟨w, hw, hl⟩ :=
      format_row_lookup (mkNames fieldsList) kvs sub hsub' g.name g (.arr xs) hgf hxs
    have hfv : format_value (.arr xs) g = .ok (.arr ids) := by
      simp [format_value, hlink, hmap]
    have hweq : w = .arr ids := by
      have := hw.symm.trans hfv
      simpa using this
    rw [hweq] at hl
    exact hl
  · intro table_id entry_id seen fr sn fieldsList kvs halias h hfields hkvs hnd g hg xs hxs hne
    cases hfr : format_row (mkNames fieldsList) kvs with
    | error err =>
        rw [get_entry_err_format env database_url table_id entry_id true seen fieldsList
          kvs err hfields hkvs hfr] at h
        simp at h
    | ok fr₀ =>
        rw [get_entry_linked_eq env database_url table_id entry_id seen fieldsList kvs fr₀
          hfields hkvs hfr, halias] at h
        have htr : truthy (.arr xs) = true := by
          simp [truthy, list_isEmpty_false xs hne]
        exact hydrate_fields_lookup env database_url kvs
          (fieldsList.filter (fun f => f.type == "link_row")) fr₀
          (seen_tables_next seen table_id) fr sn h hnd g hg xs hxs htr

/-- Witness for C6 against the mutually-linked tables of `envE`: the
`linked = false` path equals the unhydrated one, and the `linked = true`
read of row 5 replaces the `b` link value with the sub-rows of table 2,
related elementwise to the plain `entry_row` fetches. -/
theorem get_entry_depth_cap_witness :
    get_entry envE "db" 2 9 false (some [1, 2]) =
      get_entry_unlinked envE "db" 2 9 (some [1, 2])
  ∧ (∃ rows,
       alLookup [("b", JVal.arr [JVal.obj [("c", JVal.int 3),
         ("back", JVal.arr [JVal.int 5])]])] "b" = some (JVal.arr rows) ∧
       List.Forall₂ (SubRowOk envE "db" 2) [JVal.obj [("id", JVal.int 9)]] rows) := by
  constructor
  · exact (get_entry_depth_cap envE "db").1 2 9 (some [1, 2])
  · exact (get_entry_depth_cap envE "db").2.2 1 5 none
      [("b", JVal.arr [JVal.obj [("c", JVal.int 3), ("back", JVal.arr [JVal.int 5])]])]
      [1, 2] [⟨"b", "link_row", false, [], 2⟩]
      [("b", JVal.arr [JVal.obj [("id", JVal.int 9)]])]
      rfl rfl rfl rfl (by decide)
      ⟨"b", "link_row", false, [], 2⟩ (List.mem_singleton.mpr rfl)
      [JVal.obj [("id", JVal.int 9)]] rfl (by simp)

/-- Claim C10: a caller-supplied non-empty `seen_tables` list is the one
the call extends — on success the returned list (the caller's, by
aliasing) is the input list with the current table id appended,
followed by the ids appended during hydration; and when every link
field's target table is already in the caller's list, hydration is
entirely suppressed: the `linked = true` call collapses to the
unhydrated one. -/
theorem get_entry_seen_tables_growth (env : Env) (database_url : String)
    (table_id entry_id : Int) (L : List Int) (hL : L ≠ []) :
    (∀ (linked : Bool) (fr : List (String × JVal)) (sn : List Int),
       get_entry env database_url table_id entry_id linked (some L) = .ok (fr, sn) →
       ∃ ext, sn = L ++ table_id :: ext)
  ∧ (∀ fieldsList, get_fields env table_id = .ok fieldsList →
       (∀ g ∈ fieldsList, g.type = "link_row" → g.link_row_table_id ∈ L) →
       get_entry env database_url table_id entry_id true (some L) =
         get_entry_unlinked env database_url table_id entry_id (some L)) := by
  constructor
  · intro linked fr sn h
    cases linked with
    | false =>
        rw [get_entry_false_eq_unlinked env database_url table_id entry_id (some L)] at h
        obtain ⟨_, hsn⟩ := get_entry_unlinked_ok env database_url table_id entry_id
          (some L) fr sn h
        rw [seen_tables_next_some] at hsn
        exact ⟨[], hsn⟩
    | true =>
        cases hf : get_fields env table_id with
        | error err =>
            rw [get_entry_err_fields env database_url table_id entry_id true (some L)
              err hf] at h
            simp at h
        | ok fieldsList =>
            cases hk : pyItems
                (env.getResp (row_url database_url table_id entry_id)).body with
            | error err =>
                rw [get_entry_err_items env database_url table_id entry_id true (some L)
                  fieldsList err hf hk] at h
                simp at h
            | ok kvs =>
                cases hfr : format_row (mkNames fieldsList) kvs with
                | error err =>
                    rw [get_entry_err_format env database_url table_id entry_id true
                      (some L) fieldsList kvs err hf hk hfr] at h
                    simp at h
                | ok fr₀ =>
                    rw [get_entry_linked_eq env database_url table_id entry_id (some L)
                      fieldsList kvs fr₀ hf hk hfr] at h
                    obtain ⟨ext, hext⟩ := hydrate_fields_ext env database_url kvs
                      (seen_aliased (some L))
                      (fieldsList.filter (fun f => f.type == "link_row")) fr₀
                      (seen_tables_next (some L) table_id) fr sn h
                    refine ⟨ext, ?_⟩
                    rw [hext, seen_tables_next_some]
                    simp
  · intro fieldsList hfields hall
    have halias : seen_aliased (some L) = true := by
      simp [seen_aliased, list_isEmpty_false L hL]
    cases hk : pyItems (env.getResp (row_url database_url table_id entry_id)).body with
    | error err =>
        rw [get_entry_err_items env database_url table_id entry_id true (some L)
          fieldsList err hfields hk]
        exact (by simp [get_entry_unlinked, entry_row, _get_data, _get_data_step,
          hfields, hk] :
            get_entry_unlinked env database_url table_id entry_id (some L) =
              .error err).symm
    | ok kvs =>
        cases hfr : format_row (mkNames fieldsList) kvs with
        | error err =>
            rw [get_entry_err_format env database_url table_id entry_id true (some L)
              fieldsList kvs err hfields hk hfr]
            exact (by simp [get_entry_unlinked, entry_row, _get_data, _get_data_step,
              hfields, hk, hfr] :
                get_entry_unlinked env database_url table_id entry_id (some L) =
                  .error err).symm
        | ok fr₀ =>
            have hmem : ∀ g ∈ fieldsList.filter (fun f => f.type == "link_row"),
                g.link_row_table_id ∈ seen_tables_next (some L) table_id := by
              intro g hg
              obtain ⟨hgm, hgt⟩ := List.mem_filter.mp hg
              have hgt' : g.type = "link_row" := by simpa using hgt
              rw [seen_tables_next_some]
              exact List.mem_append_left _ (hall g hgm hgt')
            rw [get_entry_linked_eq env database_url table_id entry_id (some L)
              fieldsList kvs fr₀ hfields hk hfr, halias,
              hydrate_fields_skip env database_url kvs
                (fieldsList.filter (fun f => f.type == "link_row")) fr₀
                (seen_tables_next (some L) table_id) hmem]
            exact (by simp [get_entry_unlinked, entry_row, _get_data, _get_data_step,
              hfields, hk, hfr] :
                get_entry_unlinked env database_url table_id entry_id (some L) =
                  .ok (fr₀, seen_tables_next (some L) table_id)).symm

/-- Witness for C10 against `envE`: reusing the list `[2]` (table 2
already visited) the call appends `1`, and since row 5's only link
field targets table 2 the `linked = true` call equals the unhydrated
one. -/
theorem get_entry_seen_tables_growth_witness :
    (∃ ext, ([2, 1] : List Int) = [2] ++ 1 :: ext)
  ∧ get_entry envE "db" 1 5 true (some [2]) =
      get_entry_unlinked envE "db" 1 5 (some [2]) := by
  constructor
  · exact (get_entry_seen_tables_growth envE "db" 1 5 [2] (by simp)).1 true
      [("b", JVal.arr [JVal.int 9])] [2, 1] rfl
  · exact (get_entry_seen_tables_growth envE "db" 1 5 [2] (by simp)).2
      [⟨"b", "link_row", false, [], 2⟩] rfl
      (fun g hg _ => by
        have hge : g = ⟨"b", "link_row", false, [], 2⟩ := by simpa using hg
        subst hge
        simp)

end Baserow
